import Mathlib

/-!
Verification of the taoca HTTPS certificate authority against its
natural-language specification.

The development shallowly embeds the Go sources:

* `cmd/taoca/server.go` — subject-field sanitization (`sanitize`), the
  serial-number draw and sign-fold, the per-connection request handler
  `doResponse` (modelled as a pure function of an environment recording the
  results of its external collaborators: the message stream, the RNG, the
  policy guard, the publisher and the signer), and the error reporter
  `doError`.
* `x509.go` — `NewCertficationPolicy`, including a byte-level model of the
  fragment of Go's `encoding/asn1.Marshal` it exercises.
* `util/x509txt/x509txt.go` — `ExtractCertificationPolicy`, including a
  byte-level model of the fragment of `encoding/asn1.Unmarshal` it exercises.
* `policy/scanner.go` (src/unnamed/part_000) — the rule-file scanner
  (`split`, `NextLine`).
* `cmd/taoca/policy.go` — `LoadPolicy`, with the external guard engine
  (`tao.Guard.AddRule` from the cloudproxy collaborator, out of scope per the
  spec) abstracted as an oracle parameter.

Go strings are byte sequences; they are modelled as `List Nat` with each
element a byte value.
-/

namespace Taoca

/-- Go strings are byte strings; `GoStr` is the byte-level model. -/
abbrev GoStr := List Nat

/-- Byte string of an ASCII Lean string literal (used for concrete inputs). -/
def goStr (s : String) : GoStr := s.data.map Char.toNat

/-- Render an ASCII byte string back as a Lean string (used when the Go code
interpolates a scanned token into an error message with `%s`). -/
def strOfBytes (l : GoStr) : String := ⟨l.map Char.ofNat⟩

/-! ## Subject-field sanitization (`cmd/taoca/server.go`, `sanitize`) -/

/-- The allow-list `legalChars` of server.go:
`"abcdefghijklmnopqrstuvwxyzABCDEFGHIJKLMNOPQRSTUVWXYZ1234567890,:.()_/ "`.
`strings.ContainsRune(legalChars, rune((*s)[i]))` promotes the byte to a
rune, so a byte is legal exactly when it is one of these ASCII codes. -/
def legalByte (b : Nat) : Bool :=
  (97 ≤ b && b ≤ 122) || (65 ≤ b && b ≤ 90) || (48 ≤ b && b ≤ 57) ||
  b == 44 || b == 58 || b == 46 || b == 40 || b == 41 || b == 95 || b == 47 || b == 32

/-- ASCII white-space bytes. `strings.TrimSpace` trims `unicode.IsSpace`
runes; on the ASCII strings this code ever trims (the character-allow-list
check has already passed, or the scanner input is ASCII) those are exactly
these six bytes. Multi-byte Unicode white space is outside the byte model. -/
def isSpaceByteAscii (b : Nat) : Bool :=
  b == 9 || b == 10 || b == 11 || b == 12 || b == 13 || b == 32

/-- Byte-level model of `strings.TrimSpace`. -/
def trimSpace (l : GoStr) : GoStr :=
  ((l.dropWhile isSpaceByteAscii).reverse.dropWhile isSpaceByteAscii).reverse

/-- `sanitize(s *string, fieldName string, errmsg *string) string` of
server.go. The by-reference `errmsg` is modelled by returning the updated
message alongside the result: checks run only when the incoming message is
empty, and the first failing check writes its message. -/
def sanitize (s : Option GoStr) (fieldName : String) (errmsg : String) :
    GoStr × String :=
  if errmsg = "" then
    match s with
    | none => ([], "missing name." ++ fieldName)
    | some str =>
      if str = [] then ([], "empty name." ++ fieldName)
      else if str.all legalByte = false then
        ([], "invalid characters in name." ++ fieldName)
      else if str = trimSpace str then (str, errmsg)
      else ([], "invalid whitespace in name." ++ fieldName)
  else ([], errmsg)

/-- The message `sanitize` produces for one field in isolation (empty when the
field passes). -/
def sanitizeMsg (s : Option GoStr) (fieldName : String) : String :=
  (sanitize s fieldName "").2

/-- Subject name of a CSR (`X509Details` of ca.proto): each field optional. -/
structure X509Details where
  country : Option GoStr
  state : Option GoStr
  city : Option GoStr
  organization : Option GoStr
  organizationalUnit : Option GoStr
  commonName : Option GoStr
  deriving DecidableEq

/-- The six sanitize calls of `doResponse` (server.go lines 291–296), in
source order, threading `errmsg` through. -/
def csrSanitizeMsg (n : X509Details) : String :=
  let e1 := (sanitize n.country "Country" "").2
  let e2 := (sanitize n.state "State/Province" e1).2
  let e3 := (sanitize n.city "City/Locality" e2).2
  let e4 := (sanitize n.organization "Organization" e3).2
  let e5 := (sanitize n.organizationalUnit "OrganizationalUnit" e4).2
  (sanitize n.commonName "CommonName" e5).2

/-- The full request-validation message of `doResponse` (lines 291–300): after
the six sanitize calls, `if years <= 0 { errmsg = "invalid validity period" }`
overwrites the accumulated message unconditionally. -/
def csrErrmsg (n : X509Details) (years : Int) : String :=
  if years ≤ 0 then "invalid validity period" else csrSanitizeMsg n

/-- The first failing field's message in check order, each field checked in
isolation ("" when all six pass). Used to characterize `csrSanitizeMsg`. -/
def firstFailure (n : X509Details) : String :=
  if sanitizeMsg n.country "Country" ≠ "" then sanitizeMsg n.country "Country"
  else if sanitizeMsg n.state "State/Province" ≠ "" then sanitizeMsg n.state "State/Province"
  else if sanitizeMsg n.city "City/Locality" ≠ "" then sanitizeMsg n.city "City/Locality"
  else if sanitizeMsg n.organization "Organization" ≠ "" then sanitizeMsg n.organization "Organization"
  else if sanitizeMsg n.organizationalUnit "OrganizationalUnit" ≠ "" then
    sanitizeMsg n.organizationalUnit "OrganizationalUnit"
  else if sanitizeMsg n.commonName "CommonName" ≠ "" then sanitizeMsg n.commonName "CommonName"
  else ""

theorem sanitize_keep (s : Option GoStr) (f : String) {e : String} (h : e ≠ "") :
    (sanitize s f e).2 = e := by
  unfold sanitize
  rw [if_neg h]

/-- On an empty incoming message, a missing field yields its message. -/
theorem sanitize_none (f : String) :
    sanitize none f "" = ([], "missing name." ++ f) := rfl

/-- On an empty incoming message, a present field runs the three checks. -/
theorem sanitize_some (str : GoStr) (f : String) :
    sanitize (some str) f "" =
      (if str = [] then ([], "empty name." ++ f)
       else if str.all legalByte = false then
         ([], "invalid characters in name." ++ f)
       else if str = trimSpace str then (str, "")
       else ([], "invalid whitespace in name." ++ f)) := rfl

theorem csrSanitizeMsg_eq_firstFailure (n : X509Details) :
    csrSanitizeMsg n = firstFailure n := by
  unfold csrSanitizeMsg firstFailure sanitizeMsg
  by_cases h1 : (sanitize n.country "Country" "").2 = ""
  · rw [h1]
    by_cases h2 : (sanitize n.state "State/Province" "").2 = ""
    · rw [h2]
      by_cases h3 : (sanitize n.city "City/Locality" "").2 = ""
      · rw [h3]
        by_cases h4 : (sanitize n.organization "Organization" "").2 = ""
        · rw [h4]
          by_cases h5 : (sanitize n.organizationalUnit "OrganizationalUnit" "").2 = ""
          · rw [h5]
            by_cases h6 : (sanitize n.commonName "CommonName" "").2 = ""
            · simp [h1, h2, h3, h4, h5, h6]
            · simp [h1, h2, h3, h4, h5, h6]
          · simp [h1, h2, h3, h4, h5, sanitize_keep _ _ h5]
        · simp [h1, h2, h3, h4, sanitize_keep _ _ h4]
      · simp [h1, h2, h3, sanitize_keep _ _ h3]
    · simp [h1, h2, sanitize_keep _ _ h2]
  · simp [h1, sanitize_keep _ _ h1]

/-- Every nonempty sanitize message is one of the four fixed messages followed
by the field name (so the message names the failing field). -/
theorem sanitizeMsg_names_field (s : Option GoStr) (f : String) :
    sanitizeMsg s f = "" ∨
    sanitizeMsg s f = "missing name." ++ f ∨ sanitizeMsg s f = "empty name." ++ f ∨
    sanitizeMsg s f = "invalid characters in name." ++ f ∨
    sanitizeMsg s f = "invalid whitespace in name." ++ f := by
  unfold sanitizeMsg
  cases s with
  | none => rw [sanitize_none]; simp
  | some str =>
    rw [sanitize_some]
    by_cases h1 : str = []
    · rw [if_pos h1]; simp
    · rw [if_neg h1]
      by_cases h2 : str.all legalByte = false
      · rw [if_pos h2]; simp
      · rw [if_neg h2]
        by_cases h3 : str = trimSpace str
        · rw [if_pos h3]; simp
        · rw [if_neg h3]; simp

/-! ## Serial-number generation (server.go lines 319–327)

`binary.Read(rand.Reader, binary.LittleEndian, &serial)` fills a signed
64-bit integer from eight little-endian random bytes; then
`if serial < 0 { serial = ^serial }`. For an in-range int64, Go's bitwise
complement `^x` equals `-x - 1`. -/

/-- The unsigned value of a little-endian byte string, reduced mod 2^64 as the
8-byte read does. -/
def uint64LE (bs : List Nat) : Nat :=
  (bs.foldr (fun b acc => acc * 256 + b) 0) % 2 ^ 64

/-- Two's-complement reading of the drawn 64-bit value as a signed integer. -/
def int64OfLE (bs : List Nat) : Int :=
  if uint64LE bs < 2 ^ 63 then (uint64LE bs : Int) else (uint64LE bs : Int) - 2 ^ 64

/-- Go's `^x` on an in-range int64. -/
def int64Complement (x : Int) : Int := -x - 1

/-- The serial number `doResponse` ends up with, as a function of the random
bytes: the drawn signed value, folded by bitwise complement when negative. -/
def serialOfBytes (bs : List Nat) : Int :=
  if int64OfLE bs < 0 then int64Complement (int64OfLE bs) else int64OfLE bs

theorem int64OfLE_range (bs : List Nat) :
    -(2 ^ 63) ≤ int64OfLE bs ∧ int64OfLE bs < 2 ^ 63 := by
  unfold int64OfLE uint64LE
  have h : (List.foldr (fun b acc => acc * 256 + b) 0 bs) % 2 ^ 64 < 2 ^ 64 :=
    Nat.mod_lt _ (by norm_num)
  constructor
  · split <;> push_cast <;> omega
  · split <;> push_cast <;> omega

theorem serialOfBytes_nonneg (bs : List Nat) :
    0 ≤ serialOfBytes bs ∧ serialOfBytes bs < 2 ^ 63 := by
  have h := int64OfLE_range bs
  unfold serialOfBytes int64Complement
  split <;> omega

/-! ## DER building blocks

`x509.go` calls Go's generic `encoding/asn1.Marshal` on a fixed structure and
then patches one byte. The following defs model the fragment of the generic
marshaller that this structure exercises: DER definite lengths (short and
long form), TLV elements, object identifiers, and Go's choice of string tag
(PrintableString when every byte is printable, else UTF8String for valid
UTF-8, else a marshalling error) and IA5String byte check. -/

/-- Big-endian base-256 digits of a length (at least one digit). -/
def base256 (n : Nat) : List Nat :=
  if n < 256 then [n] else base256 (n / 256) ++ [n % 256]
decreasing_by exact Nat.div_lt_self (by omega) (by omega)

/-- DER definite-length octets: short form below 128, else `0x80+k` followed
by the `k` base-256 digits. -/
def lenBytes (n : Nat) : List Nat :=
  if n < 128 then [n] else (128 + (base256 n).length) :: base256 n

/-- A DER element: identifier octet, length octets, content octets. -/
def tlv (tag : Nat) (content : List Nat) : List Nat :=
  tag :: lenBytes content.length ++ content

/-- High-order base-128 digits (with continuation bit) of an OID component. -/
def base128Hi (n : Nat) : List Nat :=
  if n = 0 then [] else base128Hi (n / 128) ++ [128 + n % 128]
decreasing_by exact Nat.div_lt_self (by omega) (by omega)

/-- Base-128 encoding of one OID component, continuation bits on all but the
last digit. -/
def base128 (n : Nat) : List Nat := base128Hi (n / 128) ++ [n % 128]

/-- Content octets of an OBJECT IDENTIFIER: first two components packed as
`40*a+b`, remaining components base-128. -/
def oidContents : List Nat → List Nat
  | a :: b :: rest => base128 (40 * a + b) ++ rest.foldr (fun c acc => base128 c ++ acc) []
  | _ => []

/-- A DER-encoded OBJECT IDENTIFIER element (tag 6). -/
def oidTLV (comps : List Nat) : List Nat := tlv 6 (oidContents comps)

/-- joint-iso-itu-t(2) ds(5) certificateExtension(29) certificatePolicies(32) -/
def idCertificatePolicies : List Nat := [2, 5, 29, 32]

/-- id-qt-cps -/
def idQtCertificationPracticeStatement : List Nat := [1, 3, 6, 1, 5, 5, 7, 2, 1]

/-- id-qt-unotice -/
def idQtUnotice : List Nat := [1, 3, 6, 1, 5, 5, 7, 2, 2]

/-- ca-browser-forum subject-identity-validated -/
def idSubjectIdentityValidated : List Nat := [2, 23, 140, 1, 2, 2]

/-- Go `encoding/asn1.isPrintable`: letters, digits, `' ( ) + , - . /`,
space, `:`, `=`, `?`, and (as a documented deviation) `*`. -/
def isPrintableByte (b : Nat) : Bool :=
  (97 ≤ b && b ≤ 122) || (65 ≤ b && b ≤ 90) || (48 ≤ b && b ≤ 57) ||
  (39 ≤ b && b ≤ 41) || (43 ≤ b && b ≤ 47) ||
  b == 32 || b == 58 || b == 61 || b == 63 || b == 42

/-- A UTF-8 continuation byte. -/
def utf8Cont (b : Nat) : Bool := 128 ≤ b && b ≤ 191

/-- Go `unicode/utf8.ValidString` over the byte string: rejects overlong
encodings, surrogates and values above U+10FFFF. -/
def utf8Valid : List Nat → Bool
  | [] => true
  | b :: rest =>
    if b < 128 then utf8Valid rest
    else if 194 ≤ b && b ≤ 223 then
      match rest with
      | c1 :: r => utf8Cont c1 && utf8Valid r
      | _ => false
    else if b == 224 then
      match rest with
      | c1 :: c2 :: r => (160 ≤ c1 && c1 ≤ 191) && utf8Cont c2 && utf8Valid r
      | _ => false
    else if 225 ≤ b && b ≤ 236 then
      match rest with
      | c1 :: c2 :: r => utf8Cont c1 && utf8Cont c2 && utf8Valid r
      | _ => false
    else if b == 237 then
      match rest with
      | c1 :: c2 :: r => (128 ≤ c1 && c1 ≤ 159) && utf8Cont c2 && utf8Valid r
      | _ => false
    else if 238 ≤ b && b ≤ 239 then
      match rest with
      | c1 :: c2 :: r => utf8Cont c1 && utf8Cont c2 && utf8Valid r
      | _ => false
    else if b == 240 then
      match rest with
      | c1 :: c2 :: c3 :: r =>
        (144 ≤ c1 && c1 ≤ 191) && utf8Cont c2 && utf8Cont c3 && utf8Valid r
      | _ => false
    else if 241 ≤ b && b ≤ 243 then
      match rest with
      | c1 :: c2 :: c3 :: r => utf8Cont c1 && utf8Cont c2 && utf8Cont c3 && utf8Valid r
      | _ => false
    else if b == 244 then
      match rest with
      | c1 :: c2 :: c3 :: r =>
        (128 ≤ c1 && c1 ≤ 143) && utf8Cont c2 && utf8Cont c3 && utf8Valid r
      | _ => false
    else false
termination_by l => l.length

/-! ## `x509.go`: NewCertficationPolicy -/

/-- The DER bytes `asn1.Marshal` produces for the `[]policyInformation`
structure of `NewCertficationPolicy`, given the tag chosen for the UserNotice
string: one outer SEQUENCE OF holding one policyInformation SEQUENCE {OID,
SEQUENCE {SEQUENCE {OID, IA5String cps}, SEQUENCE {OID, SEQUENCE {string
unotice}}}}. -/
def piBytes (cps unotice : GoStr) (utag : Nat) : List Nat :=
  tlv 48 (tlv 48 (oidTLV idSubjectIdentityValidated ++ tlv 48 (
    tlv 48 (oidTLV idQtCertificationPracticeStatement ++ tlv 22 cps) ++
    tlv 48 (oidTLV idQtUnotice ++ tlv 48 (tlv utag unotice)))))

/-- Model of `asn1.Marshal(pi)` in `NewCertficationPolicy`. The marshaller
walks the fields in order: the cps string is marshalled as IA5String (any
byte at or above 0x80 is a hard error); the unotice string has no explicit
string type, so it is marshalled as PrintableString when every byte is
printable, as UTF8String when it is valid UTF-8, and rejected otherwise. -/
def marshalPI (cps unotice : GoStr) : Except String (List Nat) :=
  if cps.all (· < 128) = false then
    .error "asn1: IA5String contains invalid character"
  else if unotice.all isPrintableByte then .ok (piBytes cps unotice 19)
  else if utf8Valid unotice then .ok (piBytes cps unotice 12)
  else .error "asn1: string not valid UTF-8"

/-- `pkix.Extension`. -/
structure PkixExtension where
  Id : List Nat
  Critical : Bool
  Value : List Nat
  deriving DecidableEq

/-- `NewCertficationPolicy` of x509.go: marshal, then patch the UserNotice
string tag from PrintableString (19) to VisibleString (26), after defensively
checking that the byte two before the trailing unotice bytes is the
PrintableString tag and the byte right before them is the unotice length.
(The Go error text interpolates `i` and a hex dump; the model uses a fixed
message.) -/
def NewCertficationPolicy (cps unotice : GoStr) : Except String PkixExtension :=
  match marshalPI cps unotice with
  | .error e => .error e
  | .ok asn1Bytes =>
    if asn1Bytes.length - unotice.length < 2 ∨
        asn1Bytes.get? (asn1Bytes.length - unotice.length - 1) ≠ some unotice.length ∨
        asn1Bytes.get? (asn1Bytes.length - unotice.length - 2) ≠ some 19 then
      .error "Unexpected asn1 encoding"
    else
      .ok ⟨idCertificatePolicies, false,
        asn1Bytes.set (asn1Bytes.length - unotice.length - 2) 26⟩

/-! ## `util/x509txt/x509txt.go`: ExtractCertificationPolicy

The decoder calls the generic `asn1.Unmarshal` at the nested struct type
`[]struct{Id OID; PolicyQualifiers []struct{Id OID; Value RawValue}}` and at
`string`. The following defs model the fragment of the generic parser those
calls exercise (high-tag-number identifier octets are not modelled: this
codec never produces them). -/

/-- Long-form length loop of `parseTagAndLength`: reads `numBytes` octets,
failing on truncation, on lengths reaching 2^23, and on a zero value (DER
superfluous leading zeros). -/
def parseLenLoop : Nat → Nat → List Nat → Option (Nat × List Nat)
  | 0, acc, l => some (acc, l)
  | _ + 1, _, [] => none
  | numBytes + 1, acc, b :: rest =>
    if 2 ^ 23 ≤ acc then none
    else if acc * 256 + b = 0 then none
    else parseLenLoop numBytes (acc * 256 + b) rest

/-- DER length octets: short form below 0x80; `0x80` alone is an indefinite
length (rejected); else `0x80+k` introduces `k` long-form octets. -/
def parseLen : List Nat → Option (Nat × List Nat)
  | [] => none
  | b :: rest =>
    if b < 128 then some (b, rest)
    else if b = 128 then none
    else parseLenLoop (b - 128) 0 rest

/-- A parsed DER element: identifier octet, content octets, the element's
complete octets, and the remaining input. -/
structure ParsedElem where
  tag : Nat
  content : List Nat
  fullBytes : List Nat
  rest : List Nat
  deriving DecidableEq

/-- Parse one DER element from the head of the input. -/
def parseTLV (l : List Nat) : Option ParsedElem :=
  match l with
  | [] => none
  | b :: r =>
    if b % 32 = 31 then none
    else
      match parseLen r with
      | none => none
      | some (n, r2) =>
        if n ≤ r2.length then
          some ⟨b, r2.take n, b :: (r.take (r.length - r2.length) ++ r2.take n), r2.drop n⟩
        else none

theorem parseLenLoop_rest_le :
    ∀ (k acc : Nat) (l : List Nat) (n : Nat) (r : List Nat),
      parseLenLoop k acc l = some (n, r) → r.length ≤ l.length := by
  intro k
  induction k with
  | zero =>
    intro acc l n r h
    simp only [parseLenLoop, Option.some.injEq, Prod.mk.injEq] at h
    obtain ⟨-, rfl⟩ := h
    exact le_rfl
  | succ k ih =>
    intro acc l n r h
    match l with
    | [] => simp [parseLenLoop] at h
    | b :: rest =>
      simp only [parseLenLoop] at h
      split at h
      · exact absurd h (by simp)
      · split at h
        · exact absurd h (by simp)
        · have := ih _ _ _ _ h
          simp only [List.length_cons]
          omega

theorem parseLen_rest_lt (l : List Nat) (n : Nat) (r : List Nat)
    (h : parseLen l = some (n, r)) : r.length < l.length := by
  match l with
  | [] => simp [parseLen] at h
  | b :: rest =>
    simp only [parseLen] at h
    split at h
    · simp only [Option.some.injEq, Prod.mk.injEq] at h
      obtain ⟨-, rfl⟩ := h
      simp
    · split at h
      · exact absurd h (by simp)
      · have := parseLenLoop_rest_le _ _ _ _ _ h
        simp only [List.length_cons]
        omega

theorem parseTLV_rest_lt (l : List Nat) (el : ParsedElem)
    (h : parseTLV l = some el) : el.rest.length < l.length := by
  unfold parseTLV at h
  split at h
  · exact absurd h (by simp)
  · rename_i b r
    split at h
    · exact absurd h (by simp)
    · split at h
      · exact absurd h (by simp)
      · rename_i n r2 hl
        have hlt := parseLen_rest_lt _ _ _ hl
        split at h
        · simp only [Option.some.injEq] at h
          subst h
          simp only [List.length_cons, List.length_drop]
          omega
        · exact absurd h (by simp)

/-- Base-128 integer parse (`parseBase128Int`). -/
def parseBase128 (acc : Nat) : List Nat → Option (Nat × List Nat)
  | [] => none
  | b :: rest =>
    if b < 128 then some (acc * 128 + b, rest)
    else parseBase128 (acc * 128 + b % 128) rest

theorem parseBase128_rest_lt :
    ∀ (l : List Nat) (acc v : Nat) (r : List Nat),
      parseBase128 acc l = some (v, r) → r.length < l.length := by
  intro l
  induction l with
  | nil => intro acc v r h; simp [parseBase128] at h
  | cons b rest ih =>
    intro acc v r h
    simp only [parseBase128] at h
    split at h
    · simp only [Option.some.injEq, Prod.mk.injEq] at h
      simp [← h.2]
    · have := ih _ _ _ h
      simp only [List.length_cons]
      omega

/-- The remaining base-128 groups of an OID body (`parseObjectIdentifier`'s
loop after the first component). -/
def parseOIDGroups : List Nat → Option (List Nat)
  | [] => some []
  | b :: l =>
    match h : parseBase128 0 (b :: l) with
    | none => none
    | some (v, rest) =>
      match parseOIDGroups rest with
      | none => none
      | some vs => some (v :: vs)
termination_by l => l.length
decreasing_by
  have := parseBase128_rest_lt _ _ _ _ h
  simp only [List.length_cons] at *
  omega

/-- `parseObjectIdentifier`: the first group packs the first two components
(`v/40, v%40` below 80, else `2, v-80`); the rest are plain groups. An empty
body is an error. -/
def parseOIDContents (l : List Nat) : Option (List Nat) :=
  match l with
  | [] => none
  | b :: rest =>
    match parseBase128 0 (b :: rest) with
    | none => none
    | some (v, r2) =>
      match parseOIDGroups r2 with
      | none => none
      | some vs =>
        if v < 80 then some (v / 40 :: v % 40 :: vs) else some (2 :: (v - 80) :: vs)

/-- `asn1.RawValue` as the decoder uses it: content octets and full octets. -/
structure RawValueM where
  bytes : List Nat
  fullBytes : List Nat
  deriving DecidableEq

/-- One element of the inner qualifier slice:
`struct{Id OID; Value RawValue}`. -/
structure QualifierM where
  id : List Nat
  value : RawValueM
  deriving DecidableEq

/-- One element of the outer slice:
`struct{Id OID; PolicyQualifiers []struct{...}}`. -/
structure PolicyInfoM where
  id : List Nat
  qualifiers : List QualifierM
  deriving DecidableEq

/-- Parse one qualifier struct (a SEQUENCE holding an OID and one captured
RawValue; bytes past the second field inside the SEQUENCE are ignored, as
Go's struct parse is). Returns the struct and the input remaining after it. -/
def parseQualifier (l : List Nat) : Option (QualifierM × List Nat) :=
  match parseTLV l with
  | none => none
  | some el =>
    if el.tag ≠ 48 then none
    else
      match parseTLV el.content with
      | none => none
      | some oidEl =>
        if oidEl.tag ≠ 6 then none
        else
          match parseOIDContents oidEl.content with
          | none => none
          | some oid =>
            match parseTLV oidEl.rest with
            | none => none
            | some velEl => some (⟨oid, ⟨velEl.content, velEl.fullBytes⟩⟩, el.rest)

theorem parseQualifier_rest_lt (l : List Nat) (q : QualifierM) (r : List Nat)
    (h : parseQualifier l = some (q, r)) : r.length < l.length := by
  unfold parseQualifier at h
  split at h
  · exact absurd h (by simp)
  · rename_i el hel
    have hlt := parseTLV_rest_lt _ _ hel
    split at h
    · exact absurd h (by simp)
    · split at h
      · exact absurd h (by simp)
      · split at h
        · exact absurd h (by simp)
        · split at h
          · exact absurd h (by simp)
          · split at h
            · exact absurd h (by simp)
            · simp only [Option.some.injEq, Prod.mk.injEq] at h
              rw [← h.2]
              exact hlt

/-- `parseSequenceOf` at the qualifier struct type: elements until the
content is exhausted. -/
def parseQualifiers : List Nat → Option (List QualifierM)
  | [] => some []
  | b :: l =>
    match h : parseQualifier (b :: l) with
    | none => none
    | some (q, rest) =>
      match parseQualifiers rest with
      | none => none
      | some qs => some (q :: qs)
termination_by l => l.length
decreasing_by
  have := parseQualifier_rest_lt _ _ _ h
  simp only [List.length_cons] at *
  omega

/-- Parse one policyInformation struct. -/
def parsePolicyInfo (l : List Nat) : Option (PolicyInfoM × List Nat) :=
  match parseTLV l with
  | none => none
  | some el =>
    if el.tag ≠ 48 then none
    else
      match parseTLV el.content with
      | none => none
      | some oidEl =>
        if oidEl.tag ≠ 6 then none
        else
          match parseOIDContents oidEl.content with
          | none => none
          | some oid =>
            match parseTLV oidEl.rest with
            | none => none
            | some qsEl =>
              if qsEl.tag ≠ 48 then none
              else
                match parseQualifiers qsEl.content with
                | none => none
                | some qs => some (⟨oid, qs⟩, el.rest)

theorem parsePolicyInfo_rest_lt (l : List Nat) (p : PolicyInfoM) (r : List Nat)
    (h : parsePolicyInfo l = some (p, r)) : r.length < l.length := by
  unfold parsePolicyInfo at h
  split at h
  · exact absurd h (by simp)
  · rename_i el hel
    have hlt := parseTLV_rest_lt _ _ hel
    split at h
    · exact absurd h (by simp)
    · split at h
      · exact absurd h (by simp)
      · split at h
        · exact absurd h (by simp)
        · split at h
          · exact absurd h (by simp)
          · split at h
            · exact absurd h (by simp)
            · split at h
              · exact absurd h (by simp)
              · split at h
                · exact absurd h (by simp)
                · simp only [Option.some.injEq, Prod.mk.injEq] at h
                  rw [← h.2]
                  exact hlt

/-- `parseSequenceOf` at the policyInformation struct type. -/
def parsePolicyInfos : List Nat → Option (List PolicyInfoM)
  | [] => some []
  | b :: l =>
    match h : parsePolicyInfo (b :: l) with
    | none => none
    | some (p, rest) =>
      match parsePolicyInfos rest with
      | none => none
      | some ps => some (p :: ps)
termination_by l => l.length
decreasing_by
  have := parsePolicyInfo_rest_lt _ _ _ h
  simp only [List.length_cons] at *
  omega

/-- `asn1.Unmarshal(e.Value, &pi)` at the nested slice-of-struct type:
expects one outer SEQUENCE, parses its content as a sequence of
policyInformation structs, and returns the trailing input after the outer
element. -/
def unmarshalPI (value : List Nat) : Option (List PolicyInfoM × List Nat) :=
  match parseTLV value with
  | none => none
  | some el =>
    if el.tag ≠ 48 then none
    else
      match parsePolicyInfos el.content with
      | none => none
      | some pis => some (pis, el.rest)

/-- `asn1.Unmarshal(bytes, &s)` at type `string`: accepts PrintableString
(19, every byte printable), IA5String (22, every byte below 0x80),
UTF8String (12), T61String (20) and GeneralString (27); yields the content
bytes and the remaining input. -/
def decodeStringTLV (l : List Nat) : Option (GoStr × List Nat) :=
  match parseTLV l with
  | none => none
  | some el =>
    if el.tag = 19 then
      if el.content.all isPrintableByte then some (el.content, el.rest) else none
    else if el.tag = 22 then
      if el.content.all (· < 128) then some (el.content, el.rest) else none
    else if el.tag = 12 ∨ el.tag = 20 ∨ el.tag = 27 then some (el.content, el.rest)
    else none

/-- `ExtractCertificationPolicy` of x509txt.go: check the extension OID,
unmarshal, check trailing data, check counts and OIDs, decode the CPS from
the first qualifier's full bytes, rewrite a leading VisibleString tag of the
second qualifier's content to PrintableString, decode the user notice, and
require no trailing bytes after each string. -/
def ExtractCertificationPolicy (e : PkixExtension) : Except String (GoStr × GoStr) :=
  if e.Id ≠ idCertificatePolicies then .error "ASN OID mismatch"
  else
    match unmarshalPI e.Value with
    | none => .error "asn1 decode error"
    | some (pi, rest) =>
      if rest ≠ [] then .error "Trailing data after x509 Policy extension"
      else
        match pi with
        | [p] =>
          if p.id ≠ idSubjectIdentityValidated then
            .error "Unrecognized OID for x509 Policy extension"
          else
            match p.qualifiers with
            | [q0, q1] =>
              if q0.id ≠ idQtCertificationPracticeStatement then
                .error "Unrecognized OID for x509 Policy extension CPS"
              else
                match decodeStringTLV q0.value.fullBytes with
                | none => .error "Error extracting CPS"
                | some (cps, r0) =>
                  if r0 ≠ [] then .error "Trailing data after x509 Policy extension CPS"
                  else if q1.id ≠ idQtUnotice then
                    .error "Unrecognized OID for x509 Policy extension User Notice"
                  else
                    match decodeStringTLV
                        (if q1.value.bytes.head? = some 26 then 19 :: q1.value.bytes.tail
                         else q1.value.bytes) with
                    | none => .error "Error extracting user notice"
                    | some (unotice, r1) =>
                      if r1 ≠ [] then
                        .error "Trailing data after x509 Policy extension User Notice"
                      else .ok (cps, unotice)
            | _ => .error "Unexpected count for x509 Policy extension qualifiers"
        | _ => .error "Unexpected count for x509 Policy extension"

/-! ## The request handler (`cmd/taoca/server.go`, `doResponse`)

`doResponse` drives one connection: read one request, sanitize, decode the
key, draw a serial, decide approval (manual prompt or policy guard), publish
the two policy documents, build the extension, sign, respond. Its external
collaborators (message stream, RNG, guard, publisher, signer) are modelled by
an environment recording each one's outcome, and the function returns the
list of `Response` messages written to the stream (in order) together with
its boolean return value. -/

/-- `ResponseStatus` of ca.proto. -/
inductive Status where
  | ok
  | badRequest
  | requestDenied
  | error
  deriving DecidableEq

/-- `Response` of ca.proto: a status, an optional error detail, and the
certificates (DER bytes), leaf first. -/
structure Response where
  status : Status
  errorDetail : Option String
  certs : List (List Nat)
  deriving DecidableEq

/-- `doError`: logs and sends a `Response{Status, ErrorDetail}` with no
certificates. -/
def doError (status : Status) (detail : String) : Response :=
  ⟨status, some detail, []⟩

/-- `CSR` of ca.proto as `doResponse` consumes it. The public key bytes are
not carried: the two unmarshalling steps are recorded in the environment. -/
structure CSR where
  name : X509Details
  years : Int
  isCa : Bool

/-- `Request` of ca.proto. -/
structure Request where
  csr : CSR

/-- Outcomes of `doResponse`'s external collaborators for one connection. -/
structure Env where
  /-- `conn.ReadMessage(&req)`: the decoded request, or `none` on error. -/
  readReq : Option Request
  /-- `conn.Peer()`: the authenticated peer principal, if any. -/
  peer : Option GoStr
  /-- `proto.Unmarshal(req.CSR.PublicKey, &ck)` succeeded. -/
  protoKeyOk : Bool
  /-- `tao.UnmarshalVerifierProto(&ck)` succeeded. -/
  verifierOk : Bool
  /-- `binary.Read(rand.Reader, ..., &serial)`: the eight random bytes, or
  `none` on error (in which case `serial` keeps its zero value). -/
  rngBytes : Option (List Nat)
  /-- Server `-manual` flag. -/
  manualMode : Bool
  /-- In manual mode, the operator's final yes/no answer. -/
  manualYes : Bool
  /-- In automatic mode, the result of
  `policy.IsAuthorized(peer, "ClaimCertificate", [OU, CN]) ||
   policy.IsAuthorized(peer, "ClaimCertificate", nil)` (after any learn-mode
  rule insertion). -/
  policyAuthorized : Bool
  /-- `publish([]byte(cps))`: the URL, or `none` on write error (in which
  case the returned URL is the empty string). -/
  publishCps : Option GoStr
  /-- `publish([]byte(unotice))`: likewise. -/
  publishUnotice : Option GoStr
  /-- `caKeys.CreateSignedX509(...)`: the leaf certificate bytes, or `none`
  on signing error. -/
  signedCert : Option (List Nat)
  /-- `caKeys.CertChain("default")`: the issuer chain. -/
  certChain : List (List Nat)

/-- The response sent inside the serial-number block: when the random read
fails, `doError` sends an ERROR response — and, the call not being followed
by a `return`, execution falls through to the rest of the handler. -/
def serialResponses (env : Env) : List Response :=
  match env.rngBytes with
  | none => [doError .error "could not generate random serial number"]
  | some _ => []

/-- The straight-line tail of `doResponse` after approval: the two publish
calls — `cpsUrl, err := publish(...)`; `unoticeUrl, err := publish(...)` —
whose errors are overwritten before any check, so a failed publish leaves
the zero-valued URL ""; then `NewCertficationPolicy`, signing, and the OK
response carrying the leaf certificate followed by the issuer chain. -/
def issueTail (env : Env) : List Response × Bool :=
  match NewCertficationPolicy ((env.publishCps).getD []) ((env.publishUnotice).getD []) with
  | .error _ =>
    ([doError .error "failed to generate certificate policy extension"], false)
  | .ok _ =>
    match env.signedCert with
    | none => ([doError .error "failed to generate certificate"], false)
    | some leaf => ([⟨.ok, none, leaf :: env.certChain⟩], true)

/-- The approval decision of `doResponse` followed by the issuance tail:
manual mode denies unless the operator answered yes; automatic mode denies
anonymous peers and peers the guard does not authorize. -/
def approveAndIssue (env : Env) : List Response × Bool :=
  if env.manualMode then
    if env.manualYes then issueTail env
    else ([doError .requestDenied "request is denied"], false)
  else
    match env.peer with
    | none => ([doError .requestDenied "anonymous request is denied"], false)
    | some _ =>
      if env.policyAuthorized then issueTail env
      else ([doError .requestDenied "request is denied"], false)

/-- `doResponse` as the sequence of responses written to the connection plus
the function's return value. -/
def doResponse (env : Env) : List Response × Bool :=
  match env.readReq with
  | none => ([doError .badRequest "failed to read request"], false)
  | some req =>
    if csrErrmsg req.csr.name req.csr.years = "" then
      if env.protoKeyOk then
        if env.verifierOk then
          ((serialResponses env) ++ (approveAndIssue env).1, (approveAndIssue env).2)
        else ([doError .badRequest "can't unmarshal key"], false)
      else ([doError .badRequest "can't unmarshal key"], false)
    else ([doError .badRequest (csrErrmsg req.csr.name req.csr.years)], false)

/-! ## The rule-file scanner (`policy` package, `split` / `NextLine`)

`split` is the `bufio.SplitFunc`; the `bufio.Scanner` driver repeatedly
applies it to the remaining input (the whole file being available, each call
behaves as the `atEOF` call does). `splitStep` returns the token and the
remaining input, or `none` at end of input. -/

/-- `unicode.IsSpace(rune(b))` for a byte: ASCII white space plus U+0085 and
U+00A0. -/
def isSpaceByteGo (b : Nat) : Bool :=
  b == 9 || b == 10 || b == 11 || b == 12 || b == 13 || b == 32 || b == 133 || b == 160

/-- `continuations.ReplaceAll(data, nil)` for the regexp `\\?\r?\n`: delete
every occurrence of backslash?-CR?-newline, leftmost-longest at each
position. -/
def removeCont : List Nat → List Nat
  | 92 :: 13 :: 10 :: rest => removeCont rest
  | 92 :: 10 :: rest => removeCont rest
  | 13 :: 10 :: rest => removeCont rest
  | 10 :: rest => removeCont rest
  | b :: rest => b :: removeCont rest
  | [] => []
termination_by l => l.length

/-- Position of the first newline (used for the comment branch of `split`). -/
def findNL : List Nat → Option Nat
  | [] => none
  | b :: rest => if b == 10 then some 0 else (findNL rest).map (· + 1)

/-- Position of the first newline not preceded by a backslash (the
line-ending search of `split`'s non-comment branch); `prev` is the byte
before the current head. -/
def findEOL (prev : Option Nat) : List Nat → Option Nat
  | [] => none
  | b :: rest =>
    if b == 10 && (match prev with | none => true | some p => p != 92) then some 0
    else (findEOL (some b) rest).map (· + 1)

/-- One call of `split` on the remaining input with `atEOF` semantics:
skip leading non-newline spaces; a `#` line is consumed up to (not
including) its newline with an empty token; otherwise the line runs to the
first unescaped newline (inclusive) and continuations are deleted; at end of
input the final unterminated line (or comment) is returned. `none` when no
input remains. -/
def spacesLen (data : List Nat) : Nat :=
  (data.takeWhile (fun b => isSpaceByteGo b && b != 10)).length

def splitStep (data : List Nat) : Option (List Nat × List Nat) :=
  if data = [] then none
  else if (data.drop (spacesLen data)).head? = some 35 then
    match findNL (data.drop (spacesLen data)) with
    | some r => some ([], data.drop (spacesLen data + r))
    | none => some ([], [])
  else
    match findEOL none data with
    | some j => some (removeCont (data.take (j + 1)), data.drop (j + 1))
    | none => some (removeCont data, [])

theorem findNL_ge_one (l : List Nat) (r : Nat) (hh : l.head? = some 35)
    (h : findNL l = some r) : 1 ≤ r := by
  match l with
  | [] => simp at hh
  | b :: rest =>
    simp only [List.head?_cons, Option.some.injEq] at hh
    subst hh
    simp only [findNL] at h
    rw [if_neg (by decide)] at h
    simp only [Option.map_eq_some'] at h
    obtain ⟨a, -, ha⟩ := h
    omega

theorem splitStep_rest_lt (d t r : List Nat) (h : splitStep d = some (t, r)) :
    r.length < d.length := by
  by_cases hne : d = []
  · subst hne; simp [splitStep] at h
  · have hd : 0 < d.length := List.length_pos.mpr hne
    unfold splitStep at h
    rw [if_neg hne] at h
    by_cases hh : (d.drop (spacesLen d)).head? = some 35
    · rw [if_pos hh] at h
      split at h
      · rename_i rr hnl
        have h1 := findNL_ge_one _ _ hh hnl
        simp only [Option.some.injEq, Prod.mk.injEq] at h
        rw [← h.2]
        simp only [List.length_drop]
        omega
      · simp only [Option.some.injEq, Prod.mk.injEq] at h
        rw [← h.2]
        simpa using hd
    · rw [if_neg hh] at h
      split at h
      · rename_i j hj
        simp only [Option.some.injEq, Prod.mk.injEq] at h
        rw [← h.2]
        simp only [List.length_drop]
        omega
      · simp only [Option.some.injEq, Prod.mk.injEq] at h
        rw [← h.2]
        simpa using hd

/-- `NextLine`: scan tokens, trim each, return the first nonempty trimmed
token together with the remaining input; `([], [])` at end of input. -/
def nextLine (d : List Nat) : List Nat × List Nat :=
  match h : splitStep d with
  | none => ([], [])
  | some (t, r) =>
    if trimSpace t = [] then nextLine r else (trimSpace t, r)
termination_by d.length
decreasing_by
  have := splitStep_rest_lt _ _ _ h
  omega

theorem nextLine_rest_lt_aux :
    ∀ (n : Nat) (d : List Nat), d.length ≤ n →
      (nextLine d).1 ≠ [] → (nextLine d).2.length < d.length := by
  intro n
  induction n with
  | zero =>
    intro d hd h
    have : d = [] := List.length_eq_zero.mp (by omega)
    subst this
    rw [nextLine] at h
    simp [splitStep] at h
  | succ n ih =>
    intro d hd h
    rw [nextLine] at h ⊢
    split at h
    · simp at h
    · rename_i t r hs
      have hlt := splitStep_rest_lt _ _ _ hs
      split at h
      · rename_i hte
        rw [if_pos hte]
        have := ih r (by omega) h
        omega
      · rename_i hte
        rw [if_neg hte]
        exact hlt

theorem nextLine_rest_lt (d : List Nat) (h : (nextLine d).1 ≠ []) :
    (nextLine d).2.length < d.length :=
  nextLine_rest_lt_aux d.length d le_rfl h

/-- The sequence of logical lines `NextLine` yields before its end-of-input
sentinel. -/
def logicalLines (d : List Nat) : List GoStr :=
  if h : (nextLine d).1 = [] then []
  else (nextLine d).1 :: logicalLines (nextLine d).2
termination_by d.length
decreasing_by exact nextLine_rest_lt d h

/-! ## `cmd/taoca/policy.go`: LoadPolicy

`tao.NewACLGuard` / `tao.NewTemporaryDatalogGuard` and `Guard.AddRule` live
in the external cloudproxy collaborator (out of scope per the spec); the
guard is modelled as its kind plus the list of accepted rule lines, and
`AddRule`'s outcome as an oracle parameter mapping a rule line to `none`
(accepted) or `some errmsg`. -/

/-- The two guard variants of `LoadPolicy`. -/
inductive GuardKind where
  | acl
  | datalog
  deriving DecidableEq

/-- A loaded guard: its variant and the rule lines accepted so far. -/
structure Guard where
  kind : GuardKind
  rules : List GoStr
  deriving DecidableEq

/-- An `AddRule` outcome oracle: `none` means the rule was accepted. -/
abbrev RuleOracle := GuardKind → GoStr → Option String

/-- The error `LoadPolicy` builds when `AddRule` fails:
`fmt.Errorf("%s: %s; processing this line:\n> %s\n", path, err, line)`. -/
def ruleErrFmt (path e : String) (line : GoStr) : String :=
  path ++ ": " ++ e ++ "; processing this line:\n> " ++ strOfBytes line ++ "\n"

/-- The rule loop of `LoadPolicy`:
`for line := s.NextLine(); line != ""; line = s.NextLine() { ... }`. -/
def loadRules (oracle : RuleOracle) (k : GuardKind) (path : String)
    (d : List Nat) (acc : List GoStr) : Except String Guard :=
  if hl : (nextLine d).1 = [] then .ok ⟨k, acc⟩
  else
    match oracle k (nextLine d).1 with
    | some e => .error (ruleErrFmt path e (nextLine d).1)
    | none => loadRules oracle k path (nextLine d).2 (acc ++ [(nextLine d).1])
termination_by d.length
decreasing_by exact nextLine_rest_lt d hl

/-- Lower-case hex digit. -/
def hexDigit (n : Nat) : Char := Char.ofNat (if n < 10 then 48 + n else 87 + n)

/-- Go `%q` of one byte (strconv escaping; multi-byte runes are outside the
byte model — every instance in this development is ASCII). -/
def goQuoteByte (b : Nat) : String :=
  if b = 34 then "\\\""
  else if b = 92 then "\\\\"
  else if b = 7 then "\\a"
  else if b = 8 then "\\b"
  else if b = 9 then "\\t"
  else if b = 10 then "\\n"
  else if b = 11 then "\\v"
  else if b = 12 then "\\f"
  else if b = 13 then "\\r"
  else if 32 ≤ b ∧ b ≤ 126 then String.singleton (Char.ofNat b)
  else "\\x" ++ ⟨[hexDigit (b / 16), hexDigit (b % 16)]⟩

/-- Go `%q` of a byte string. -/
def goQuote (l : GoStr) : String :=
  "\"" ++ (l.map goQuoteByte).foldr (· ++ ·) "" ++ "\""

/-- `LoadPolicy` of cmd/taoca/policy.go, over the file's bytes (`NewScanner`
failing to open the file is outside the model: the content is given). The
first logical line selects the guard variant; `""` (end of input before any
line) and any other token are distinct errors; remaining lines feed
`AddRule`. -/
def LoadPolicy (oracle : RuleOracle) (path : String) (content : List Nat) :
    Except String Guard :=
  if (nextLine content).1 = goStr "acl" then
    loadRules oracle .acl path (nextLine content).2 []
  else if (nextLine content).1 = goStr "datalog" then
    loadRules oracle .datalog path (nextLine content).2 []
  else if (nextLine content).1 = [] then
    .error (path ++ ": first line must specify 'datalog' or 'acl'\n")
  else
    .error (path ++ ": expected 'datalog' or 'acl', found " ++
      goQuote (nextLine content).1 ++ "\n")

/-! ## Concrete instances used by the claim theorems -/

/-- A subject name whose six fields all pass sanitization. -/
def okName : X509Details :=
  ⟨some (goStr "US"), some (goStr "MA"), some (goStr "Oakham"),
   some (goStr "Google"), some (goStr "CloudProxy"), some (goStr "www.example.com")⟩

/-- A connection environment in which every collaborator succeeds: automatic
mode, authenticated authorized peer, good CSR, working RNG, publisher and
signer. -/
def okEnv : Env :=
  ⟨some ⟨⟨okName, 1, false⟩⟩, some (goStr "P1"), true, true,
   some [1, 2, 3, 4, 5, 6, 7, 8], false, false, true,
   some (goStr "https://x/c.txt"), some (goStr "https://x/u.txt"),
   some [1, 2, 3], [[4, 5]]⟩

/-- `okEnv` with a failing random-number read. -/
def rngFailEnv : Env :=
  ⟨some ⟨⟨okName, 1, false⟩⟩, some (goStr "P1"), true, true,
   none, false, false, true,
   some (goStr "https://x/c.txt"), some (goStr "https://x/u.txt"),
   some [1, 2, 3], [[4, 5]]⟩

/-- `okEnv` with a failing CPS-document publish. -/
def cpsPublishFailEnv : Env :=
  ⟨some ⟨⟨okName, 1, false⟩⟩, some (goStr "P1"), true, true,
   some [1, 2, 3, 4, 5, 6, 7, 8], false, false, true,
   none, some (goStr "https://x/u.txt"),
   some [1, 2, 3], [[4, 5]]⟩

/-- `okEnv` with a failing user-notice-document publish. -/
def unoticePublishFailEnv : Env :=
  ⟨some ⟨⟨okName, 1, false⟩⟩, some (goStr "P1"), true, true,
   some [1, 2, 3, 4, 5, 6, 7, 8], false, false, true,
   some (goStr "https://x/c.txt"), none,
   some [1, 2, 3], [[4, 5]]⟩

/-- The scanner input of the spec's rule-file parser test vector. -/
def scannerInput : GoStr := goStr "# comment\nline one\\\ncontinued\n\nline two\n"

unseal base256 base128Hi utf8Valid in
theorem okEnv_eval :
    doResponse okEnv = ([⟨.ok, none, [[1, 2, 3], [4, 5]]⟩], true) := by decide

unseal base256 base128Hi utf8Valid in
theorem rngFailEnv_eval :
    doResponse rngFailEnv =
      ([doError .error "could not generate random serial number",
        ⟨.ok, none, [[1, 2, 3], [4, 5]]⟩], true) := by decide

unseal base256 base128Hi utf8Valid in
theorem cpsPublishFailEnv_eval :
    doResponse cpsPublishFailEnv = ([⟨.ok, none, [[1, 2, 3], [4, 5]]⟩], true) := by decide

unseal base256 base128Hi utf8Valid in
theorem unoticePublishFailEnv_eval :
    doResponse unoticePublishFailEnv = ([⟨.ok, none, [[1, 2, 3], [4, 5]]⟩], true) := by
  decide

/-! ## C1 -/

/-- C1: the claim states that every connection gets exactly one `Response`,
in particular that a failing random-serial draw is answered by exactly one
ERROR response with no further response. The code contradicts this: the
`doError` call in the serial block (server.go:321-323) is not followed by
`return`, so the handler falls through; with every later collaborator
succeeding, the connection receives the ERROR response and then a second,
OK response carrying certificates. This theorem evaluates the handler at
that failing input. -/
theorem C1_rng_failure_sends_two_responses :
    doResponse rngFailEnv =
      ([doError .error "could not generate random serial number",
        ⟨.ok, none, [[1, 2, 3], [4, 5]]⟩], true) ∧
    (doResponse rngFailEnv).1.length = 2 :=
  ⟨rngFailEnv_eval, by rw [rngFailEnv_eval]; rfl⟩

/-! ## C4 -/

/-- C4: the claim states that a failed publish of either policy document is
answered with an ERROR response. The code contradicts this: in
`cpsUrl, err := publish(...)`; `unoticeUrl, err := publish(...)`;
`ext, err := taoca.NewCertficationPolicy(...)` (server.go:404-408) the two
publish errors are overwritten before any check, so a failed publish leaves
a zero-valued URL "" and the handler proceeds to issue the certificate and
answer OK. This theorem evaluates the handler at both failing inputs. -/
theorem C4_publish_failure_swallowed :
    doResponse cpsPublishFailEnv = ([⟨.ok, none, [[1, 2, 3], [4, 5]]⟩], true) ∧
    doResponse unoticePublishFailEnv = ([⟨.ok, none, [[1, 2, 3], [4, 5]]⟩], true) :=
  ⟨cpsPublishFailEnv_eval, unoticePublishFailEnv_eval⟩

/-! ## C8 -/

unseal nextLine removeCont in
theorem scanner_eval₁ :
    nextLine scannerInput = (goStr "line onecontinued", goStr "\nline two\n") := by decide

unseal nextLine removeCont in
theorem scanner_eval₂ : nextLine (goStr "\nline two\n") = (goStr "line two", []) := by decide

unseal nextLine in
theorem scanner_eval₃ : nextLine ([] : List Nat) = ([], []) := by decide

unseal nextLine removeCont logicalLines in
theorem scanner_eval₄ :
    logicalLines scannerInput = [goStr "line onecontinued", goStr "line two"] := by decide

/-- C8: scanning `"# comment\nline one\\\ncontinued\n\nline two\n"` with
`NextLine` yields exactly the logical lines `"line onecontinued"` then
`"line two"`, then the empty end-of-input sentinel: the comment and blank
lines are dropped and the continuation is joined with no inserted
whitespace. -/
theorem C8_scanner_example :
    nextLine scannerInput = (goStr "line onecontinued", goStr "\nline two\n") ∧
    nextLine (goStr "\nline two\n") = (goStr "line two", []) ∧
    nextLine ([] : List Nat) = ([], []) ∧
    logicalLines scannerInput = [goStr "line onecontinued", goStr "line two"] :=
  ⟨scanner_eval₁, scanner_eval₂, scanner_eval₃, scanner_eval₄⟩

/-! ## C9 -/

/-- C9, counterexample to the claim as stated. The claim asserts the
complement fold "does not reliably produce a non-negative value for all
random 64-bit inputs"; in fact it always does (first conjunct, the claim's
negation). The remaining conjuncts: the fold is the bitwise complement, not
the absolute value (the bytes of -5 fold to 4, not 5), and it is not always
positive (the bytes of -1 fold to 0). -/
theorem C9_counterexample :
    (∀ bs : List Nat, 0 ≤ serialOfBytes bs) ∧
    int64OfLE [251, 255, 255, 255, 255, 255, 255, 255] = -5 ∧
    serialOfBytes [251, 255, 255, 255, 255, 255, 255, 255] = 4 ∧
    serialOfBytes [255, 255, 255, 255, 255, 255, 255, 255] = 0 :=
  ⟨fun bs => (serialOfBytes_nonneg bs).1, by decide, by decide, by decide⟩

/-- C9, amended: when the drawn signed 64-bit value is negative the handler
replaces it with its bitwise complement `-x-1` (not its absolute value), and
this fold always yields a value in `[0, 2^63)` — non-negative for every
random input, though 0 (not positive) is possible. -/
theorem C9_complement_fold (bs : List Nat) :
    (int64OfLE bs < 0 → serialOfBytes bs = int64Complement (int64OfLE bs)) ∧
    (0 ≤ int64OfLE bs → serialOfBytes bs = int64OfLE bs) ∧
    0 ≤ serialOfBytes bs ∧ serialOfBytes bs < 2 ^ 63 := by
  have h := serialOfBytes_nonneg bs
  refine ⟨fun hneg => ?_, fun hpos => ?_, h.1, h.2⟩
  · unfold serialOfBytes
    rw [if_pos hneg]
  · unfold serialOfBytes
    rw [if_neg (by omega)]

/-! ## C5 and C10: supporting lemmas -/

/-- `firstFailure` is empty only when every field's isolated check passes. -/
theorem firstFailure_empty (n : X509Details) (h : firstFailure n = "") :
    sanitizeMsg n.country "Country" = "" ∧
    sanitizeMsg n.state "State/Province" = "" ∧
    sanitizeMsg n.city "City/Locality" = "" ∧
    sanitizeMsg n.organization "Organization" = "" ∧
    sanitizeMsg n.organizationalUnit "OrganizationalUnit" = "" ∧
    sanitizeMsg n.commonName "CommonName" = "" := by
  unfold firstFailure at h
  by_cases h1 : sanitizeMsg n.country "Country" = "" <;>
    by_cases h2 : sanitizeMsg n.state "State/Province" = "" <;>
    by_cases h3 : sanitizeMsg n.city "City/Locality" = "" <;>
    by_cases h4 : sanitizeMsg n.organization "Organization" = "" <;>
    by_cases h5 : sanitizeMsg n.organizationalUnit "OrganizationalUnit" = "" <;>
    by_cases h6 : sanitizeMsg n.commonName "CommonName" = "" <;>
    simp_all

/-- `csrErrmsg` equals the years override of the first isolated failure. -/
theorem csrErrmsg_characterization (n : X509Details) (years : Int) :
    csrErrmsg n years =
      if years ≤ 0 then "invalid validity period" else firstFailure n := by
  unfold csrErrmsg
  rw [csrSanitizeMsg_eq_firstFailure]

/-- A missing field makes the whole validation fail. -/
theorem csrErrmsg_ne_empty_of_missing (n : X509Details) (years : Int)
    (h : n.country = none ∨ n.state = none ∨ n.city = none ∨
      n.organization = none ∨ n.organizationalUnit = none ∨ n.commonName = none) :
    csrErrmsg n years ≠ "" := by
  rw [csrErrmsg_characterization]
  split
  · simp
  · intro hf
    have h6 := firstFailure_empty n hf
    rcases h with h | h | h | h | h | h <;>
      rw [h] at h6 <;> simp [sanitizeMsg, sanitize_none] at h6

/-- When the request reads successfully but validation fails, the handler
answers exactly one BAD_REQUEST response carrying the validation message. -/
theorem doResponse_bad_request (env : Env) (req : Request)
    (hr : env.readReq = some req)
    (he : csrErrmsg req.csr.name req.csr.years ≠ "") :
    doResponse env =
      ([doError .badRequest (csrErrmsg req.csr.name req.csr.years)], false) := by
  unfold doResponse
  rw [hr]
  simp [he]

/-- The nonempty value of `firstFailure` is one of the six fields' messages,
and that message appends the field's name to one of the four fixed texts. -/
theorem firstFailure_names_field (n : X509Details) (h : firstFailure n ≠ "") :
    ∃ f ∈ ["Country", "State/Province", "City/Locality", "Organization",
           "OrganizationalUnit", "CommonName"],
      ∃ pre ∈ ["missing name.", "empty name.", "invalid characters in name.",
               "invalid whitespace in name."],
        firstFailure n = pre ++ f := by
  have main : ∃ s f, f ∈ ["Country", "State/Province", "City/Locality", "Organization",
      "OrganizationalUnit", "CommonName"] ∧ firstFailure n = sanitizeMsg s f := by
    unfold firstFailure at h ⊢
    by_cases h1 : sanitizeMsg n.country "Country" ≠ ""
    · exact ⟨n.country, "Country", by simp, by rw [if_pos h1]⟩
    · rw [if_neg h1] at h ⊢
      by_cases h2 : sanitizeMsg n.state "State/Province" ≠ ""
      · exact ⟨n.state, "State/Province", by simp, by rw [if_pos h2]⟩
      · rw [if_neg h2] at h ⊢
        by_cases h3 : sanitizeMsg n.city "City/Locality" ≠ ""
        · exact ⟨n.city, "City/Locality", by simp, by rw [if_pos h3]⟩
        · rw [if_neg h3] at h ⊢
          by_cases h4 : sanitizeMsg n.organization "Organization" ≠ ""
          · exact ⟨n.organization, "Organization", by simp, by rw [if_pos h4]⟩
          · rw [if_neg h4] at h ⊢
            by_cases h5 : sanitizeMsg n.organizationalUnit "OrganizationalUnit" ≠ ""
            · exact ⟨n.organizationalUnit, "OrganizationalUnit", by simp,
                by rw [if_pos h5]⟩
            · rw [if_neg h5] at h ⊢
              by_cases h6 : sanitizeMsg n.commonName "CommonName" ≠ ""
              · exact ⟨n.commonName, "CommonName", by simp, by rw [if_pos h6]⟩
              · rw [if_neg h6] at h
                exact absurd rfl h
  obtain ⟨s, f, hf, heq⟩ := main
  rcases sanitizeMsg_names_field s f with h0 | h0 | h0 | h0 | h0
  · rw [heq, h0] at h
    exact absurd rfl h
  · exact ⟨f, hf, "missing name.", by simp, by rw [heq, h0]⟩
  · exact ⟨f, hf, "empty name.", by simp, by rw [heq, h0]⟩
  · exact ⟨f, hf, "invalid characters in name.", by simp, by rw [heq, h0]⟩
  · exact ⟨f, hf, "invalid whitespace in name.", by simp, by rw [heq, h0]⟩

/-! ## C5 -/

/-- A CSR name whose Country field holds `@` (0x40), outside `legalChars`. -/
def badCountryName : X509Details :=
  ⟨some [64], some (goStr "MA"), some (goStr "Oakham"),
   some (goStr "Google"), some (goStr "CloudProxy"), some (goStr "www.example.com")⟩

/-- `okEnv` carrying `badCountryName` with `years = 0`. -/
def badCountryYearsEnv : Env :=
  ⟨some ⟨⟨badCountryName, 0, false⟩⟩, some (goStr "P1"), true, true,
   some [1, 2, 3, 4, 5, 6, 7, 8], false, false, true,
   some (goStr "https://x/c.txt"), some (goStr "https://x/u.txt"),
   some [1, 2, 3], [[4, 5]]⟩

/-- C5, counterexample to the claim as stated: with a Country field failing
sanitization and `years = 0`, the `years` check overwrites the accumulated
message, so the BAD_REQUEST detail is "invalid validity period" — not the
first sanitization failure's message and not naming the failing field. -/
theorem C5_counterexample :
    csrErrmsg badCountryName 0 = "invalid validity period" ∧
    firstFailure badCountryName = "invalid characters in name.Country" ∧
    "invalid validity period" ≠ "invalid characters in name.Country" ∧
    doResponse badCountryYearsEnv =
      ([doError .badRequest "invalid validity period"], false) :=
  ⟨by decide, by decide, by decide, by decide⟩

/-- C5, amended: the six fields are checked in the fixed order Country,
State, City, Organization, OrganizationalUnit, CommonName, short-circuiting
at the first failure — the threaded message equals the first isolated
per-field failure — except that a non-positive `years` overwrites the
message with "invalid validity period". When `years` is positive, the
BAD_REQUEST detail is the first sanitization failure's message, which
appends the failing field's name to one of the four fixed message texts;
validation failure is answered by exactly one BAD_REQUEST response carrying
that detail. -/
theorem C5_sanitization_order (n : X509Details) (years : Int) (env : Env) (req : Request) :
    csrErrmsg n years =
      (if years ≤ 0 then "invalid validity period" else firstFailure n) ∧
    (0 < years → firstFailure n ≠ "" →
      ∃ f ∈ ["Country", "State/Province", "City/Locality", "Organization",
             "OrganizationalUnit", "CommonName"],
        ∃ pre ∈ ["missing name.", "empty name.", "invalid characters in name.",
                 "invalid whitespace in name."],
          csrErrmsg n years = pre ++ f) ∧
    (env.readReq = some req → csrErrmsg req.csr.name req.csr.years ≠ "" →
      doResponse env =
        ([doError .badRequest (csrErrmsg req.csr.name req.csr.years)], false)) := by
  refine ⟨csrErrmsg_characterization n years, fun hy hf => ?_,
    doResponse_bad_request env req⟩
  have he : csrErrmsg n years = firstFailure n := by
    rw [csrErrmsg_characterization, if_neg (by omega)]
  rw [he]
  exact firstFailure_names_field n hf

/-! ## C10 -/

/-- A CSR name with an invalid Country and an absent State. -/
def invalidThenMissingName : X509Details :=
  ⟨some [64], none, some (goStr "Oakham"),
   some (goStr "Google"), some (goStr "CloudProxy"), some (goStr "www.example.com")⟩

/-- `okEnv` carrying `invalidThenMissingName` with `years = 1`. -/
def invalidThenMissingEnv : Env :=
  ⟨some ⟨⟨invalidThenMissingName, 1, false⟩⟩, some (goStr "P1"), true, true,
   some [1, 2, 3, 4, 5, 6, 7, 8], false, false, true,
   some (goStr "https://x/c.txt"), some (goStr "https://x/u.txt"),
   some [1, 2, 3], [[4, 5]]⟩

/-- C10, counterexample to the claim as stated: with State absent but
Country present and failing the character check, the response detail is
"invalid characters in name.Country", not `"missing name.<field>"` for the
first absent field (State). -/
theorem C10_counterexample :
    invalidThenMissingName.state = none ∧
    csrErrmsg invalidThenMissingName 1 = "invalid characters in name.Country" ∧
    "invalid characters in name.Country" ≠ "missing name.State/Province" ∧
    doResponse invalidThenMissingEnv =
      ([doError .badRequest "invalid characters in name.Country"], false) :=
  ⟨by decide, by decide, by decide, by decide⟩

/-- C10, amended: all six subject fields are required — any absent field
fails validation, and the request is answered with one BAD_REQUEST response
— and when `years` is positive and every field checked before the first
absent one passes its isolated sanitization, the detail is
`"missing name.<label>"` for that first absent field's label. -/
theorem C10_fields_required (n : X509Details) (years : Int) (env : Env) (req : Request) :
    ((n.country = none ∨ n.state = none ∨ n.city = none ∨ n.organization = none ∨
      n.organizationalUnit = none ∨ n.commonName = none) → csrErrmsg n years ≠ "") ∧
    (env.readReq = some req →
      (req.csr.name.country = none ∨ req.csr.name.state = none ∨
       req.csr.name.city = none ∨ req.csr.name.organization = none ∨
       req.csr.name.organizationalUnit = none ∨ req.csr.name.commonName = none) →
      ∃ d, d ≠ "" ∧ doResponse env = ([doError .badRequest d], false)) ∧
    (0 < years →
      (n.country = none → csrErrmsg n years = "missing name.Country") ∧
      (sanitizeMsg n.country "Country" = "" → n.state = none →
        csrErrmsg n years = "missing name.State/Province") ∧
      (sanitizeMsg n.country "Country" = "" →
        sanitizeMsg n.state "State/Province" = "" → n.city = none →
        csrErrmsg n years = "missing name.City/Locality") ∧
      (sanitizeMsg n.country "Country" = "" →
        sanitizeMsg n.state "State/Province" = "" →
        sanitizeMsg n.city "City/Locality" = "" → n.organization = none →
        csrErrmsg n years = "missing name.Organization") ∧
      (sanitizeMsg n.country "Country" = "" →
        sanitizeMsg n.state "State/Province" = "" →
        sanitizeMsg n.city "City/Locality" = "" →
        sanitizeMsg n.organization "Organization" = "" → n.organizationalUnit = none →
        csrErrmsg n years = "missing name.OrganizationalUnit") ∧
      (sanitizeMsg n.country "Country" = "" →
        sanitizeMsg n.state "State/Province" = "" →
        sanitizeMsg n.city "City/Locality" = "" →
        sanitizeMsg n.organization "Organization" = "" →
        sanitizeMsg n.organizationalUnit "OrganizationalUnit" = "" →
        n.commonName = none →
        csrErrmsg n years = "missing name.CommonName")) := by
  refine ⟨csrErrmsg_ne_empty_of_missing n years, fun hr hmiss => ?_, fun hy => ?_⟩
  · exact ⟨csrErrmsg req.csr.name req.csr.years,
      csrErrmsg_ne_empty_of_missing req.csr.name req.csr.years hmiss,
      doResponse_bad_request env req hr
        (csrErrmsg_ne_empty_of_missing req.csr.name req.csr.years hmiss)⟩
  · have hc : csrErrmsg n years = firstFailure n := by
      rw [csrErrmsg_characterization, if_neg (by omega)]
    have hFalse : ¬(("" : String) ≠ "") := by decide
    refine ⟨fun h1 => ?_, fun h1 h2 => ?_, fun h1 h2 h3 => ?_, fun h1 h2 h3 h4 => ?_,
      fun h1 h2 h3 h4 h5 => ?_, fun h1 h2 h3 h4 h5 h6 => ?_⟩
    · rw [hc]; unfold firstFailure; rw [h1]
      rw [if_pos (by decide : sanitizeMsg none "Country" ≠ "")]
      decide
    · rw [hc]; unfold firstFailure; rw [h1, h2]
      simp only [if_neg hFalse]
      rw [if_pos (by decide : sanitizeMsg none "State/Province" ≠ "")]
      decide
    · rw [hc]; unfold firstFailure; rw [h1, h2, h3]
      simp only [if_neg hFalse]
      rw [if_pos (by decide : sanitizeMsg none "City/Locality" ≠ "")]
      decide
    · rw [hc]; unfold firstFailure; rw [h1, h2, h3, h4]
      simp only [if_neg hFalse]
      rw [if_pos (by decide : sanitizeMsg none "Organization" ≠ "")]
      decide
    · rw [hc]; unfold firstFailure; rw [h1, h2, h3, h4, h5]
      simp only [if_neg hFalse]
      rw [if_pos (by decide : sanitizeMsg none "OrganizationalUnit" ≠ "")]
      decide
    · rw [hc]; unfold firstFailure; rw [h1, h2, h3, h4, h5, h6]
      simp only [if_neg hFalse]
      rw [if_pos (by decide : sanitizeMsg none "CommonName" ≠ "")]
      decide

/-! ## C6 -/

/-- Every `doError` response satisfies the response invariant: a non-OK
status, no certificates, and a nonempty detail. -/
theorem doError_inv (env : Env) (st : Status) (d : String)
    (hst : st ≠ Status.ok) (hd : d ≠ "") :
    ((doError st d).status = .ok →
      (doError st d).certs ≠ [] ∧ (doError st d).errorDetail = none ∧
      ∃ leaf, env.signedCert = some leaf ∧
        (doError st d).certs = leaf :: env.certChain) ∧
    ((doError st d).status ≠ .ok →
      (doError st d).certs = [] ∧
      ∃ dd, (doError st d).errorDetail = some dd ∧ dd ≠ "") :=
  ⟨fun h => absurd h hst, fun _ => ⟨rfl, d, rfl, hd⟩⟩

/-- Every response of the issuance tail satisfies the response invariant. -/
theorem issueTail_inv (env : Env) (r : Response) (hr : r ∈ (issueTail env).1) :
    (r.status = .ok →
      r.certs ≠ [] ∧ r.errorDetail = none ∧
      ∃ leaf, env.signedCert = some leaf ∧ r.certs = leaf :: env.certChain) ∧
    (r.status ≠ .ok → r.certs = [] ∧ ∃ d, r.errorDetail = some d ∧ d ≠ "") := by
  unfold issueTail at hr
  split at hr
  · simp only [List.mem_singleton] at hr
    subst hr
    exact doError_inv env _ _ (by decide) (by decide)
  · split at hr
    · simp only [List.mem_singleton] at hr
      subst hr
      exact doError_inv env _ _ (by decide) (by decide)
    · rename_i leaf hleaf
      simp only [List.mem_singleton] at hr
      subst hr
      exact ⟨fun _ => ⟨by simp, rfl, leaf, hleaf, rfl⟩, fun hne => absurd rfl hne⟩

/-- Every response of the approval-and-issue phase satisfies the invariant. -/
theorem approveAndIssue_inv (env : Env) (r : Response)
    (hr : r ∈ (approveAndIssue env).1) :
    (r.status = .ok →
      r.certs ≠ [] ∧ r.errorDetail = none ∧
      ∃ leaf, env.signedCert = some leaf ∧ r.certs = leaf :: env.certChain) ∧
    (r.status ≠ .ok → r.certs = [] ∧ ∃ d, r.errorDetail = some d ∧ d ≠ "") := by
  unfold approveAndIssue at hr
  split at hr
  · split at hr
    · exact issueTail_inv env r hr
    · simp only [List.mem_singleton] at hr
      subst hr
      exact doError_inv env _ _ (by decide) (by decide)
  · split at hr
    · simp only [List.mem_singleton] at hr
      subst hr
      exact doError_inv env _ _ (by decide) (by decide)
    · split at hr
      · exact issueTail_inv env r hr
      · simp only [List.mem_singleton] at hr
        subst hr
        exact doError_inv env _ _ (by decide) (by decide)

/-- C6: every response the handler sends satisfies: status OK implies it
carries at least one certificate — the newly issued leaf first, followed by
the issuer chain — and no error detail; any non-OK status implies it carries
zero certificates and a nonempty human-readable error detail. -/
theorem C6_response_invariant (env : Env) (r : Response)
    (hr : r ∈ (doResponse env).1) :
    (r.status = .ok →
      r.certs ≠ [] ∧ r.errorDetail = none ∧
      ∃ leaf, env.signedCert = some leaf ∧ r.certs = leaf :: env.certChain) ∧
    (r.status ≠ .ok → r.certs = [] ∧ ∃ d, r.errorDetail = some d ∧ d ≠ "") := by
  unfold doResponse at hr
  split at hr
  · simp only [List.mem_singleton] at hr
    subst hr
    exact doError_inv env _ _ (by decide) (by decide)
  · rename_i req
    split at hr
    · split at hr
      · split at hr
        · rw [List.mem_append] at hr
          rcases hr with hr | hr
          · unfold serialResponses at hr
            split at hr
            · simp only [List.mem_singleton] at hr
              subst hr
              exact doError_inv env _ _ (by decide) (by decide)
            · simp at hr
          · exact approveAndIssue_inv env r hr
        · simp only [List.mem_singleton] at hr
          subst hr
          exact doError_inv env _ _ (by decide) (by decide)
      · simp only [List.mem_singleton] at hr
        subst hr
        exact doError_inv env _ _ (by decide) (by decide)
    · rename_i hne
      simp only [List.mem_singleton] at hr
      subst hr
      exact doError_inv env _ _ (by decide) hne

/-- C6 witness: the invariant applied to the OK response of a successful
connection. -/
theorem C6_witness :
    ((⟨.ok, none, [[1, 2, 3], [4, 5]]⟩ : Response).status = .ok →
      (⟨.ok, none, [[1, 2, 3], [4, 5]]⟩ : Response).certs ≠ [] ∧
      (⟨.ok, none, [[1, 2, 3], [4, 5]]⟩ : Response).errorDetail = none ∧
      ∃ leaf, okEnv.signedCert = some leaf ∧
        (⟨.ok, none, [[1, 2, 3], [4, 5]]⟩ : Response).certs = leaf :: okEnv.certChain) ∧
    ((⟨.ok, none, [[1, 2, 3], [4, 5]]⟩ : Response).status ≠ .ok →
      (⟨.ok, none, [[1, 2, 3], [4, 5]]⟩ : Response).certs = [] ∧
      ∃ d, (⟨.ok, none, [[1, 2, 3], [4, 5]]⟩ : Response).errorDetail = some d ∧ d ≠ "") :=
  C6_response_invariant okEnv ⟨.ok, none, [[1, 2, 3], [4, 5]]⟩ (by
    rw [okEnv_eval]
    simp)

/-! ## C7 -/

/-- When every logical line is accepted, the rule loop returns the guard
holding the accumulated rules followed by all the lines. -/
theorem loadRules_ok_aux :
    ∀ (N : Nat) (oracle : RuleOracle) (k : GuardKind) (path : String)
      (d : List Nat) (acc : List GoStr), d.length ≤ N →
      (∀ l ∈ logicalLines d, oracle k l = none) →
      loadRules oracle k path d acc = .ok ⟨k, acc ++ logicalLines d⟩ := by
  intro N
  induction N with
  | zero =>
    intro oracle k path d acc hd _
    have hdnil : d = [] := List.length_eq_zero.mp (by omega)
    subst hdnil
    rw [loadRules, logicalLines, scanner_eval₃]
    simp
  | succ N ih =>
    intro oracle k path d acc hd hall
    by_cases hl : (nextLine d).1 = []
    · rw [loadRules, logicalLines, dif_pos hl, dif_pos hl]
      simp
    · rw [logicalLines, dif_neg hl] at hall
      rw [loadRules, dif_neg hl, logicalLines, dif_neg hl]
      have h1 : oracle k (nextLine d).1 = none := hall _ (by simp)
      split
      · rename_i e he
        rw [h1] at he
        exact absurd he (by simp)
      · have hlen := nextLine_rest_lt d hl
        rw [ih oracle k path (nextLine d).2 (acc ++ [(nextLine d).1]) (by omega)
          (fun l hm => hall l (by simp [hm]))]
        simp

/-- A rejected logical line aborts the loop with the formatted error, once
every earlier line was accepted. -/
theorem loadRules_err :
    ∀ (pre : List GoStr) (oracle : RuleOracle) (k : GuardKind) (path : String)
      (d : List Nat) (acc : List GoStr) (line : GoStr) (post : List GoStr) (e : String),
      logicalLines d = pre ++ line :: post →
      (∀ p ∈ pre, oracle k p = none) →
      oracle k line = some e →
      loadRules oracle k path d acc = .error (ruleErrFmt path e line) := by
  intro pre
  induction pre with
  | nil =>
    intro oracle k path d acc line post e hll hpre he
    have hl : (nextLine d).1 ≠ [] ∧ (nextLine d).1 = line := by
      by_cases hl0 : (nextLine d).1 = []
      · rw [logicalLines, dif_pos hl0] at hll
        simp at hll
      · rw [logicalLines, dif_neg hl0] at hll
        simp only [List.nil_append, List.cons.injEq] at hll
        exact ⟨hl0, hll.1⟩
    rw [loadRules, dif_neg hl.1]
    split
    · rename_i e2 he2
      rw [hl.2, he] at he2
      simp only [Option.some.injEq] at he2
      rw [hl.2, ← he2]
    · rename_i he2
      rw [hl.2, he] at he2
      exact absurd he2 (by simp)
  | cons p pre ih =>
    intro oracle k path d acc line post e hll hpre he
    have hl0 : (nextLine d).1 ≠ [] := by
      intro hc
      rw [logicalLines, dif_pos hc] at hll
      exact absurd hll.symm (by simp)
    rw [logicalLines, dif_neg hl0] at hll
    simp only [List.cons_append, List.cons.injEq] at hll
    obtain ⟨hp, hrest⟩ := hll
    rw [loadRules, dif_neg hl0]
    split
    · rename_i e2 he2
      rw [hp, hpre p (by simp)] at he2
      exact absurd he2 (by simp)
    · exact ih oracle k path (nextLine d).2 (acc ++ [(nextLine d).1]) line post e hrest
        (fun q hq => hpre q (by simp [hq])) he

/-- C7: `LoadPolicy` returns a guard only when the first logical line is,
case-sensitively, "acl" or "datalog"; end of input before any logical line
yields the fixed first-line error; any other first token yields an error
quoting that token; and once the variant is selected, every remaining
logical line feeds `AddRule` in order — if all are accepted the guard holds
exactly those rules, and the first rejected line aborts loading with an
error carrying that line's content and the parse error. -/
theorem C7_load_policy (oracle : RuleOracle) (path : String) (content : List Nat) :
    (∀ g, LoadPolicy oracle path content = .ok g →
      (nextLine content).1 = goStr "acl" ∨ (nextLine content).1 = goStr "datalog") ∧
    ((nextLine content).1 = [] →
      LoadPolicy oracle path content =
        .error (path ++ ": first line must specify 'datalog' or 'acl'\n")) ∧
    ((nextLine content).1 ≠ goStr "acl" → (nextLine content).1 ≠ goStr "datalog" →
      (nextLine content).1 ≠ [] →
      LoadPolicy oracle path content =
        .error (path ++ ": expected 'datalog' or 'acl', found " ++
          goQuote (nextLine content).1 ++ "\n")) ∧
    (∀ k : GuardKind,
      ((nextLine content).1 = goStr "acl" ∧ k = GuardKind.acl ∨
       (nextLine content).1 = goStr "datalog" ∧ k = GuardKind.datalog) →
      ((∀ l ∈ logicalLines (nextLine content).2, oracle k l = none) →
        LoadPolicy oracle path content =
          .ok ⟨k, logicalLines (nextLine content).2⟩) ∧
      (∀ pre line post e,
        logicalLines (nextLine content).2 = pre ++ line :: post →
        (∀ p ∈ pre, oracle k p = none) → oracle k line = some e →
        LoadPolicy oracle path content = .error (ruleErrFmt path e line))) := by
  refine ⟨?_, ?_, ?_, ?_⟩
  · intro g hg
    by_cases h1 : (nextLine content).1 = goStr "acl"
    · exact Or.inl h1
    · by_cases h2 : (nextLine content).1 = goStr "datalog"
      · exact Or.inr h2
      · unfold LoadPolicy at hg
        rw [if_neg h1, if_neg h2] at hg
        split at hg <;> exact absurd hg (by simp)
  · intro h0
    have h1 : (nextLine content).1 ≠ goStr "acl" := by rw [h0]; decide
    have h2 : (nextLine content).1 ≠ goStr "datalog" := by rw [h0]; decide
    unfold LoadPolicy
    rw [if_neg h1, if_neg h2, if_pos h0]
  · intro h1 h2 h3
    unfold LoadPolicy
    rw [if_neg h1, if_neg h2, if_neg h3]
  · intro k hk
    constructor
    · intro hall
      unfold LoadPolicy
      rcases hk with ⟨ht, hkv⟩ | ⟨ht, hkv⟩
      · subst hkv
        rw [if_pos ht,
          loadRules_ok_aux (nextLine content).2.length oracle _ path _ [] le_rfl hall]
        simp
      · subst hkv
        rw [if_neg (by rw [ht]; decide), if_pos ht,
          loadRules_ok_aux (nextLine content).2.length oracle _ path _ [] le_rfl hall]
        simp
    · intro pre line post e hll hpre he
      unfold LoadPolicy
      rcases hk with ⟨ht, hkv⟩ | ⟨ht, hkv⟩
      · subst hkv
        rw [if_pos ht, loadRules_err pre oracle _ path _ [] line post e hll hpre he]
      · subst hkv
        rw [if_neg (by rw [ht]; decide), if_pos ht,
          loadRules_err pre oracle _ path _ [] line post e hll hpre he]

/-! ## C2 and C3: DER codec lemmas -/

theorem lenBytes_short (n : Nat) (h : n < 128) : lenBytes n = [n] := by
  unfold lenBytes
  rw [if_pos h]

theorem lenBytes_long (n : Nat) (h : ¬ n < 128) :
    lenBytes n = (128 + (base256 n).length) :: base256 n := by
  unfold lenBytes
  rw [if_neg h]

theorem base256_ne_nil (n : Nat) : base256 n ≠ [] := by
  rw [base256]
  split <;> simp

theorem base256_foldl (n : Nat) :
    (base256 n).foldl (fun a b => a * 256 + b) 0 = n := by
  induction n using Nat.strong_induction_on with
  | _ n ih =>
    rw [base256]
    split
    · simp
    · rename_i h
      rw [List.foldl_append, ih (n / 256) (Nat.div_lt_self (by omega) (by omega))]
      simp only [List.foldl]
      omega

theorem base256_head_pos :
    ∀ n : Nat, 0 < n → ∃ d ds, base256 n = d :: ds ∧ 0 < d := by
  intro n
  induction n using Nat.strong_induction_on with
  | _ n ih =>
    intro h
    rw [base256]
    split
    · exact ⟨n, [], rfl, h⟩
    · rename_i h2
      obtain ⟨d, ds, hds, hd⟩ :=
        ih (n / 256) (Nat.div_lt_self (by omega) (by omega)) (by omega)
      exact ⟨d, ds ++ [n % 256], by rw [hds]; simp, hd⟩

theorem base256_concat (n : Nat) : ∃ ds, base256 n = ds ++ [n % 256] := by
  rw [base256]
  split
  · rename_i h
    exact ⟨[], by simp [Nat.mod_eq_of_lt h]⟩
  · exact ⟨base256 (n / 256), rfl⟩

theorem foldl256_mono (ds : List Nat) :
    ∀ acc, acc ≤ ds.foldl (fun a b => a * 256 + b) acc := by
  induction ds with
  | nil => intro acc; simp
  | cons b ds ih =>
    intro acc
    simp only [List.foldl]
    calc acc ≤ acc * 256 + b := by omega
    _ ≤ _ := ih _

theorem parseLenLoop_append (ds : List Nat) :
    ∀ (acc : Nat) (r : List Nat), 0 < acc →
      ds.foldl (fun a b => a * 256 + b) acc < 2 ^ 23 →
      parseLenLoop ds.length acc (ds ++ r) =
        some (ds.foldl (fun a b => a * 256 + b) acc, r) := by
  induction ds with
  | nil => intro acc r _ _; simp [parseLenLoop]
  | cons b ds ih =>
    intro acc r h1 h2
    have hm : acc * 256 + b ≤ ds.foldl (fun a b => a * 256 + b) (acc * 256 + b) :=
      foldl256_mono ds _
    simp only [List.foldl] at h2 ⊢
    simp only [List.length_cons, List.cons_append, parseLenLoop]
    rw [if_neg (by omega), if_neg (by omega)]
    exact ih (acc * 256 + b) r (by omega) h2

theorem parseLen_lenBytes (n : Nat) (r : List Nat) (h : n < 2 ^ 23) :
    parseLen (lenBytes n ++ r) = some (n, r) := by
  by_cases h1 : n < 128
  · rw [lenBytes_short n h1]
    simp only [List.cons_append, List.nil_append, parseLen]
    rw [if_pos h1]
  · rw [lenBytes_long n h1]
    obtain ⟨d, ds, hds, hd⟩ := base256_head_pos n (by omega)
    have hlen : (base256 n).length = ds.length + 1 := by rw [hds]; simp
    simp only [List.cons_append, parseLen]
    rw [if_neg (by omega), if_neg (by omega)]
    have hL : 128 + (base256 n).length - 128 = (base256 n).length := by omega
    rw [hL, hds]
    have hfold : ds.foldl (fun a b => a * 256 + b) d = n := by
      have hb := base256_foldl n
      rw [hds] at hb
      simpa using hb
    simp only [List.length_cons, List.cons_append, parseLenLoop]
    rw [if_neg (by omega), if_neg (by omega)]
    have := parseLenLoop_append ds d r hd (by rw [hfold]; omega)
    simp only [Nat.zero_mul, Nat.zero_add, List.append_eq]
    rw [this, hfold]

theorem parseTLV_tlv (t : Nat) (c rest : List Nat) (ht : ¬ t % 32 = 31)
    (hc : c.length < 2 ^ 23) :
    parseTLV (tlv t c ++ rest) = some ⟨t, c, tlv t c, rest⟩ := by
  have hform : tlv t c ++ rest = t :: (lenBytes c.length ++ (c ++ rest)) := by
    simp [tlv]
  rw [hform]
  simp only [parseTLV]
  rw [if_neg ht, parseLen_lenBytes c.length (c ++ rest) hc]
  have htake : (c ++ rest).take c.length = c := List.take_left c rest
  have hdrop : (c ++ rest).drop c.length = rest := List.drop_left c rest
  have hlen : (lenBytes c.length ++ (c ++ rest)).length - (c ++ rest).length =
      (lenBytes c.length).length := by
    simp [List.length_append]
  have htake2 : (lenBytes c.length ++ (c ++ rest)).take ((lenBytes c.length).length) =
      lenBytes c.length := List.take_left _ _
  simp only [hlen, htake, hdrop, htake2]
  rw [if_pos (by simp)]
  simp [tlv]

theorem parseTLV_tlv_nil (t : Nat) (c : List Nat) (ht : ¬ t % 32 = 31)
    (hc : c.length < 2 ^ 23) :
    parseTLV (tlv t c) = some ⟨t, c, tlv t c, []⟩ := by
  have := parseTLV_tlv t c [] ht hc
  rwa [List.append_nil] at this

theorem get?_append_right' (P : List Nat) :
    ∀ (s : List Nat) (k : Nat), (P ++ s).get? (P.length + k) = s.get? k := by
  induction P with
  | nil => simp
  | cons a P ih =>
    intro s k
    simp only [List.cons_append, List.length_cons]
    have harith : P.length + 1 + k = (P.length + k) + 1 := by omega
    rw [harith, List.get?_cons_succ, ih]

theorem set_append_len (P : List Nat) :
    ∀ (x y : Nat) (s : List Nat), (P ++ x :: s).set P.length y = P ++ y :: s := by
  induction P with
  | nil => simp
  | cons a P ih =>
    intro x y s
    simp only [List.cons_append, List.length_cons, List.set, List.append_eq]
    rw [ih]

/-- One SEQUENCE layer of the decomposition: wrapping a body of the form
`P ++ S t` (with `S t` of t-independent length) prepends t-independent
bytes. -/
theorem tlv48_step (L0 : Nat) (S : Nat → List Nat) (hS : ∀ t, (S t).length = L0)
    (X : Nat → List Nat) (P : List Nat) (hX : ∀ t, X t = P ++ S t) (t : Nat) :
    tlv 48 (X t) = ((48 :: lenBytes (P.length + L0)) ++ P) ++ S t := by
  rw [hX t]
  have hlen : (P ++ S t).length = P.length + L0 := by rw [List.length_append, hS t]
  simp [tlv, hlen, List.append_assoc]

/-- The marshalled policy-information bytes decompose as a tag-independent
prefix followed by the UserNotice string element (whose tag is the byte the
patch rewrites), the element's length octets, and the unotice bytes. -/
theorem piBytes_decomp (cps uno : GoStr) :
    ∃ P, ∀ t, piBytes cps uno t = P ++ (t :: (lenBytes uno.length ++ uno)) := by
  have hS : ∀ t : Nat, (t :: (lenBytes uno.length ++ uno)).length =
      1 + (lenBytes uno.length).length + uno.length := by
    intro t
    simp only [List.length_cons, List.length_append]
    omega
  have step0 : ∀ t : Nat, tlv t uno = [] ++ (t :: (lenBytes uno.length ++ uno)) := by
    intro t
    simp [tlv]
  obtain ⟨P1, h1⟩ : ∃ P, ∀ t : Nat,
      tlv 48 (tlv t uno) = P ++ (t :: (lenBytes uno.length ++ uno)) :=
    ⟨_, fun t => tlv48_step _ _ hS (fun t => tlv t uno) [] step0 t⟩
  obtain ⟨P2, h2⟩ : ∃ P, ∀ t : Nat,
      oidTLV idQtUnotice ++ tlv 48 (tlv t uno) =
        P ++ (t :: (lenBytes uno.length ++ uno)) :=
    ⟨oidTLV idQtUnotice ++ P1, fun t => by rw [h1 t, ← List.append_assoc]⟩
  obtain ⟨P3, h3⟩ : ∃ P, ∀ t : Nat,
      tlv 48 (oidTLV idQtUnotice ++ tlv 48 (tlv t uno)) =
        P ++ (t :: (lenBytes uno.length ++ uno)) :=
    ⟨_, fun t => tlv48_step _ _ hS
      (fun t => oidTLV idQtUnotice ++ tlv 48 (tlv t uno)) P2 h2 t⟩
  obtain ⟨P4, h4⟩ : ∃ P, ∀ t : Nat,
      tlv 48 (oidTLV idQtCertificationPracticeStatement ++ tlv 22 cps) ++
        tlv 48 (oidTLV idQtUnotice ++ tlv 48 (tlv t uno)) =
        P ++ (t :: (lenBytes uno.length ++ uno)) :=
    ⟨tlv 48 (oidTLV idQtCertificationPracticeStatement ++ tlv 22 cps) ++ P3,
      fun t => by rw [h3 t, ← List.append_assoc]⟩
  obtain ⟨P5, h5⟩ : ∃ P, ∀ t : Nat,
      tlv 48 (tlv 48 (oidTLV idQtCertificationPracticeStatement ++ tlv 22 cps) ++
        tlv 48 (oidTLV idQtUnotice ++ tlv 48 (tlv t uno))) =
        P ++ (t :: (lenBytes uno.length ++ uno)) :=
    ⟨_, fun t => tlv48_step _ _ hS
      (fun t => tlv 48 (oidTLV idQtCertificationPracticeStatement ++ tlv 22 cps) ++
        tlv 48 (oidTLV idQtUnotice ++ tlv 48 (tlv t uno))) P4 h4 t⟩
  obtain ⟨P6, h6⟩ : ∃ P, ∀ t : Nat,
      oidTLV idSubjectIdentityValidated ++
        tlv 48 (tlv 48 (oidTLV idQtCertificationPracticeStatement ++ tlv 22 cps) ++
          tlv 48 (oidTLV idQtUnotice ++ tlv 48 (tlv t uno))) =
        P ++ (t :: (lenBytes uno.length ++ uno)) :=
    ⟨oidTLV idSubjectIdentityValidated ++ P5, fun t => by rw [h5 t, ← List.append_assoc]⟩
  obtain ⟨P7, h7⟩ : ∃ P, ∀ t : Nat,
      tlv 48 (oidTLV idSubjectIdentityValidated ++
        tlv 48 (tlv 48 (oidTLV idQtCertificationPracticeStatement ++ tlv 22 cps) ++
          tlv 48 (oidTLV idQtUnotice ++ tlv 48 (tlv t uno)))) =
        P ++ (t :: (lenBytes uno.length ++ uno)) :=
    ⟨_, fun t => tlv48_step _ _ hS
      (fun t => oidTLV idSubjectIdentityValidated ++
        tlv 48 (tlv 48 (oidTLV idQtCertificationPracticeStatement ++ tlv 22 cps) ++
          tlv 48 (oidTLV idQtUnotice ++ tlv 48 (tlv t uno)))) P6 h6 t⟩
  obtain ⟨P8, h8⟩ : ∃ P, ∀ t : Nat,
      tlv 48 (tlv 48 (oidTLV idSubjectIdentityValidated ++
        tlv 48 (tlv 48 (oidTLV idQtCertificationPracticeStatement ++ tlv 22 cps) ++
          tlv 48 (oidTLV idQtUnotice ++ tlv 48 (tlv t uno))))) =
        P ++ (t :: (lenBytes uno.length ++ uno)) :=
    ⟨_, fun t => tlv48_step _ _ hS
      (fun t => tlv 48 (oidTLV idSubjectIdentityValidated ++
        tlv 48 (tlv 48 (oidTLV idQtCertificationPracticeStatement ++ tlv 22 cps) ++
          tlv 48 (oidTLV idQtUnotice ++ tlv 48 (tlv t uno))))) P7 h7 t⟩
  exact ⟨P8, fun t => by unfold piBytes; exact h8 t⟩

/-- A successful marshal is `piBytes` with the PrintableString tag (when the
unotice is printable) or the UTF8String tag (otherwise, for valid UTF-8). -/
theorem marshalPI_ok_cases (cps uno : GoStr) (b : List Nat)
    (h : marshalPI cps uno = .ok b) :
    cps.all (· < 128) = true ∧
    ((uno.all isPrintableByte = true ∧ b = piBytes cps uno 19) ∨
     (uno.all isPrintableByte = false ∧ utf8Valid uno = true ∧ b = piBytes cps uno 12)) := by
  unfold marshalPI at h
  split at h
  · exact absurd h (by simp)
  · rename_i hc
    refine ⟨by revert hc; simp, ?_⟩
    split at h
    · rename_i hu
      simp only [Except.ok.injEq] at h
      exact Or.inl ⟨hu, h.symm⟩
    · rename_i hu
      split at h
      · rename_i hv
        simp only [Except.ok.injEq] at h
        exact Or.inr ⟨by revert hu; simp, hv, h.symm⟩
      · exact absurd h (by simp)

/-- On printable unotice input of length at most 127, `marshalPI` succeeds
with the PrintableString encoding. -/
theorem marshalPI_ok (cps uno : GoStr) (hc : cps.all (· < 128) = true)
    (hu : uno.all isPrintableByte = true) :
    marshalPI cps uno = .ok (piBytes cps uno 19) := by
  unfold marshalPI
  rw [if_neg (by simp [hc]), if_pos hu]

/-- Encoding succeeds on printable short unotice input, and the result is
the marshalled bytes with the UserNotice tag byte patched from 19 to 26. -/
theorem NewCertficationPolicy_ok (cps uno : GoStr)
    (hc : cps.all (· < 128) = true) (hu : uno.all isPrintableByte = true)
    (hw : uno.length ≤ 127) :
    NewCertficationPolicy cps uno =
      .ok ⟨idCertificatePolicies, false, piBytes cps uno 26⟩ := by
  obtain ⟨P, hP⟩ := piBytes_decomp cps uno
  have hP19 := hP 19
  have hP26 := hP 26
  rw [lenBytes_short uno.length (by omega)] at hP19 hP26
  simp only [List.singleton_append] at hP19 hP26
  unfold NewCertficationPolicy
  rw [marshalPI_ok cps uno hc hu]
  have hlen : (piBytes cps uno 19).length = P.length + 2 + uno.length := by
    rw [hP19]
    simp only [List.length_append, List.length_cons]
    omega
  have hi : (piBytes cps uno 19).length - uno.length = P.length + 2 := by omega
  have hg1 : (piBytes cps uno 19).get? (P.length + 1) = some uno.length := by
    rw [hP19]
    have := get?_append_right' P (19 :: uno.length :: uno) 1
    simpa using this
  have hg2 : (piBytes cps uno 19).get? P.length = some 19 := by
    rw [hP19]
    have := get?_append_right' P (19 :: uno.length :: uno) 0
    simpa using this
  split
  · rename_i e heq
    exact absurd heq (by simp)
  rename_i b heq
  simp only [Except.ok.injEq] at heq
  subst heq
  rw [if_neg ?cond]
  case cond =>
    intro hor
    rcases hor with h0 | h0 | h0
    · omega
    · rw [hi] at h0
      have : P.length + 2 - 1 = P.length + 1 := by omega
      rw [this, hg1] at h0
      exact h0 rfl
    · rw [hi] at h0
      have : P.length + 2 - 2 = P.length := by omega
      rw [this, hg2] at h0
      exact h0 rfl
  have hset : (piBytes cps uno 19).set ((piBytes cps uno 19).length - uno.length - 2) 26 =
      piBytes cps uno 26 := by
    rw [hi]
    have : P.length + 2 - 2 = P.length := by omega
    rw [this, hP19, hP26, set_append_len]
  rw [hset]

/-! ## C2: decoding the patched extension -/

unseal base128Hi parseOIDGroups in
theorem parseOID_siv :
    parseOIDContents (oidContents idSubjectIdentityValidated) =
      some idSubjectIdentityValidated := by decide

unseal base128Hi parseOIDGroups in
theorem parseOID_cps :
    parseOIDContents (oidContents idQtCertificationPracticeStatement) =
      some idQtCertificationPracticeStatement := by decide

unseal base128Hi parseOIDGroups in
theorem parseOID_unotice :
    parseOIDContents (oidContents idQtUnotice) = some idQtUnotice := by decide

unseal base128Hi in
theorem oidTLV_siv_length : (oidTLV idSubjectIdentityValidated).length = 8 := by decide

unseal base128Hi in
theorem oidTLV_cps_length :
    (oidTLV idQtCertificationPracticeStatement).length = 10 := by decide

unseal base128Hi in
theorem oidTLV_unotice_length : (oidTLV idQtUnotice).length = 10 := by decide

unseal base128Hi in
theorem oidContents_siv_length :
    (oidContents idSubjectIdentityValidated).length = 6 := by decide

unseal base128Hi in
theorem oidContents_cps_length :
    (oidContents idQtCertificationPracticeStatement).length = 8 := by decide

unseal base128Hi in
theorem oidContents_unotice_length : (oidContents idQtUnotice).length = 8 := by decide

theorem base256_length_le :
    ∀ (k n : Nat), n < 256 ^ (k + 1) → (base256 n).length ≤ k + 1 := by
  intro k
  induction k with
  | zero =>
    intro n h
    rw [base256, if_pos (by simpa using h)]
    simp
  | succ k ih =>
    intro n h
    rw [base256]
    split
    · simp
    · rename_i h2
      have hdiv : n / 256 < 256 ^ (k + 1) := by
        rw [Nat.div_lt_iff_lt_mul (by omega)]
        calc n < 256 ^ (k + 2) := h
        _ = 256 ^ (k + 1) * 256 := by ring
      have := ih (n / 256) hdiv
      simp only [List.length_append, List.length_cons, List.length_nil]
      omega

theorem lenBytes_length_le (n : Nat) (h : n < 2 ^ 23) : (lenBytes n).length ≤ 4 := by
  by_cases h1 : n < 128
  · rw [lenBytes_short n h1]
    simp
  · rw [lenBytes_long n h1]
    have : (base256 n).length ≤ 3 := base256_length_le 2 n (by norm_num; omega)
    simp only [List.length_cons]
    omega

theorem parseQualifiers_cons (b : Nat) (l r : List Nat) (q : QualifierM)
    (qs : List QualifierM) (h : parseQualifier (b :: l) = some (q, r))
    (hr : parseQualifiers r = some qs) :
    parseQualifiers (b :: l) = some (q :: qs) := by
  rw [parseQualifiers, h]
  split
  · rename_i heq
    exact absurd heq (by simp)
  · rename_i q1 r1 heq
    simp only [Option.some.injEq, Prod.mk.injEq] at heq
    obtain ⟨hq, hrr⟩ := heq
    subst hq
    subst hrr
    rw [hr]

theorem parsePolicyInfos_cons (b : Nat) (l r : List Nat) (p : PolicyInfoM)
    (ps : List PolicyInfoM) (h : parsePolicyInfo (b :: l) = some (p, r))
    (hr : parsePolicyInfos r = some ps) :
    parsePolicyInfos (b :: l) = some (p :: ps) := by
  rw [parsePolicyInfos, h]
  split
  · rename_i heq
    exact absurd heq (by simp)
  · rename_i p1 r1 heq
    simp only [Option.some.injEq, Prod.mk.injEq] at heq
    obtain ⟨hp, hrr⟩ := heq
    subst hp
    subst hrr
    rw [hr]

/-- Parse one qualifier struct of the shape the encoder emits. -/
theorem parseQualifier_mk (X E rest : List Nat) (xparsed : List Nat)
    (velEl : ParsedElem)
    (hX : parseOIDContents (oidContents X) = some xparsed)
    (hXlen : (oidContents X).length < 2 ^ 23)
    (hbody : (oidTLV X ++ E).length < 2 ^ 23)
    (hE : parseTLV E = some velEl) :
    parseQualifier (tlv 48 (oidTLV X ++ E) ++ rest) =
      some (⟨xparsed, ⟨velEl.content, velEl.fullBytes⟩⟩, rest) := by
  have h1 := parseTLV_tlv 48 (oidTLV X ++ E) rest (by decide) hbody
  have h2 : parseTLV
      ((⟨48, oidTLV X ++ E, tlv 48 (oidTLV X ++ E), rest⟩ : ParsedElem).content) =
      some ⟨6, oidContents X, tlv 6 (oidContents X), E⟩ :=
    parseTLV_tlv 6 (oidContents X) E (by decide) hXlen
  simp only [parseQualifier, h1, h2, hX, hE]
  simp

/-- Parse one policyInformation struct of the shape the encoder emits. -/
theorem parsePolicyInfo_mk (X QS rest : List Nat) (xparsed : List Nat)
    (qs : List QualifierM)
    (hX : parseOIDContents (oidContents X) = some xparsed)
    (hXlen : (oidContents X).length < 2 ^ 23)
    (hbody : (oidTLV X ++ tlv 48 QS).length < 2 ^ 23)
    (hQSlen : QS.length < 2 ^ 23)
    (hqs : parseQualifiers QS = some qs) :
    parsePolicyInfo (tlv 48 (oidTLV X ++ tlv 48 QS) ++ rest) =
      some (⟨xparsed, qs⟩, rest) := by
  have h1 := parseTLV_tlv 48 (oidTLV X ++ tlv 48 QS) rest (by decide) hbody
  have h2 : parseTLV
      ((⟨48, oidTLV X ++ tlv 48 QS, tlv 48 (oidTLV X ++ tlv 48 QS), rest⟩ :
        ParsedElem).content) =
      some ⟨6, oidContents X, tlv 6 (oidContents X), tlv 48 QS⟩ :=
    parseTLV_tlv 6 (oidContents X) (tlv 48 QS) (by decide) hXlen
  have h3 : parseTLV ((⟨6, oidContents X, tlv 6 (oidContents X), tlv 48 QS⟩ :
      ParsedElem).rest) = some ⟨48, QS, tlv 48 QS, []⟩ :=
    parseTLV_tlv_nil 48 QS (by decide) hQSlen
  simp only [parsePolicyInfo, h1, h2, hX, h3, hqs]
  simp

theorem parseQualifiers_nil : parseQualifiers [] = some [] := by
  rw [parseQualifiers]

theorem parsePolicyInfos_nil : parsePolicyInfos [] = some [] := by
  rw [parsePolicyInfos]

theorem parseQualifiers_append (body rest : List Nat) (q : QualifierM)
    (qs : List QualifierM)
    (h : parseQualifier (tlv 48 body ++ rest) = some (q, rest))
    (hr : parseQualifiers rest = some qs) :
    parseQualifiers (tlv 48 body ++ rest) = some (q :: qs) := by
  have hcons : tlv 48 body ++ rest = 48 :: (lenBytes body.length ++ body ++ rest) := by
    simp [tlv]
  rw [hcons] at h ⊢
  exact parseQualifiers_cons _ _ _ _ _ h hr

theorem parsePolicyInfos_append (body rest : List Nat) (p : PolicyInfoM)
    (ps : List PolicyInfoM)
    (h : parsePolicyInfo (tlv 48 body ++ rest) = some (p, rest))
    (hr : parsePolicyInfos rest = some ps) :
    parsePolicyInfos (tlv 48 body ++ rest) = some (p :: ps) := by
  have hcons : tlv 48 body ++ rest = 48 :: (lenBytes body.length ++ body ++ rest) := by
    simp [tlv]
  rw [hcons] at h ⊢
  exact parsePolicyInfos_cons _ _ _ _ _ h hr

theorem decodeStringTLV_printable (c : List Nat) (hc : c.all isPrintableByte = true)
    (hlen : c.length < 2 ^ 23) :
    decodeStringTLV (tlv 19 c) = some (c, []) := by
  have h1 := parseTLV_tlv_nil 19 c (by decide) hlen
  simp only [decodeStringTLV, h1]
  simp [hc]

theorem decodeStringTLV_ia5 (c : List Nat) (hc : c.all (· < 128) = true)
    (hlen : c.length < 2 ^ 23) :
    decodeStringTLV (tlv 22 c) = some (c, []) := by
  have h1 := parseTLV_tlv_nil 22 c (by decide) hlen
  simp only [decodeStringTLV, h1]
  simp [hc]

theorem tlv_length_le (t : Nat) (x : List Nat) (h : x.length < 2 ^ 23) :
    (tlv t x).length ≤ 5 + x.length := by
  simp only [tlv, List.length_cons, List.length_append]
  have := lenBytes_length_le x.length h
  omega

/-- Decoding the patched extension recovers the two strings. -/
theorem Extract_piBytes (cps uno : GoStr) (hc : cps.all (· < 128) = true)
    (hu : uno.all isPrintableByte = true) (hw : uno.length ≤ 127)
    (hclen : cps.length ≤ 2 ^ 20) :
    ExtractCertificationPolicy ⟨idCertificatePolicies, false, piBytes cps uno 26⟩ =
      .ok (cps, uno) := by
  have hUE : (tlv 26 uno).length ≤ 129 := by
    simp only [tlv, lenBytes_short uno.length (by omega), List.length_cons,
      List.length_append, List.length_nil]
    omega
  have hSU : (tlv 48 (tlv 26 uno)).length ≤ 134 := by
    have := tlv_length_le 48 (tlv 26 uno) (by omega)
    omega
  have hD : (oidTLV idQtUnotice ++ tlv 48 (tlv 26 uno)).length ≤ 144 := by
    simp only [List.length_append, oidTLV_unotice_length]
    omega
  have hQ2 : (tlv 48 (oidTLV idQtUnotice ++ tlv 48 (tlv 26 uno))).length ≤ 149 := by
    have := tlv_length_le 48 (oidTLV idQtUnotice ++ tlv 48 (tlv 26 uno)) (by omega)
    omega
  have hCE : (tlv 22 cps).length ≤ 5 + cps.length := tlv_length_le 22 cps (by omega)
  have hB1 : (oidTLV idQtCertificationPracticeStatement ++ tlv 22 cps).length ≤
      15 + cps.length := by
    simp only [List.length_append, oidTLV_cps_length]
    omega
  have hQ1 : (tlv 48 (oidTLV idQtCertificationPracticeStatement ++ tlv 22 cps)).length ≤
      20 + cps.length := by
    have := tlv_length_le 48 (oidTLV idQtCertificationPracticeStatement ++ tlv 22 cps)
      (by omega)
    omega
  have hQS : (tlv 48 (oidTLV idQtCertificationPracticeStatement ++ tlv 22 cps) ++
      tlv 48 (oidTLV idQtUnotice ++ tlv 48 (tlv 26 uno))).length ≤ 169 + cps.length := by
    simp only [List.length_append]
    omega
  have hSeq : (tlv 48 (tlv 48 (oidTLV idQtCertificationPracticeStatement ++ tlv 22 cps) ++
      tlv 48 (oidTLV idQtUnotice ++ tlv 48 (tlv 26 uno)))).length ≤ 174 + cps.length := by
    have := tlv_length_le 48 (tlv 48 (oidTLV idQtCertificationPracticeStatement ++
      tlv 22 cps) ++ tlv 48 (oidTLV idQtUnotice ++ tlv 48 (tlv 26 uno))) (by omega)
    omega
  have hPIC : (oidTLV idSubjectIdentityValidated ++
      tlv 48 (tlv 48 (oidTLV idQtCertificationPracticeStatement ++ tlv 22 cps) ++
        tlv 48 (oidTLV idQtUnotice ++ tlv 48 (tlv 26 uno)))).length ≤
      182 + cps.length := by
    simp only [List.length_append, oidTLV_siv_length]
    omega
  have hA1 : (tlv 48 (oidTLV idSubjectIdentityValidated ++
      tlv 48 (tlv 48 (oidTLV idQtCertificationPracticeStatement ++ tlv 22 cps) ++
        tlv 48 (oidTLV idQtUnotice ++ tlv 48 (tlv 26 uno))))).length ≤
      187 + cps.length := by
    have := tlv_length_le 48 (oidTLV idSubjectIdentityValidated ++
      tlv 48 (tlv 48 (oidTLV idQtCertificationPracticeStatement ++ tlv 22 cps) ++
        tlv 48 (oidTLV idQtUnotice ++ tlv 48 (tlv 26 uno)))) (by omega)
    omega
  have hvCps : parseTLV (tlv 22 cps) = some ⟨22, cps, tlv 22 cps, []⟩ :=
    parseTLV_tlv_nil 22 cps (by decide) (by omega)
  have hvU : parseTLV (tlv 48 (tlv 26 uno)) =
      some ⟨48, tlv 26 uno, tlv 48 (tlv 26 uno), []⟩ :=
    parseTLV_tlv_nil 48 (tlv 26 uno) (by decide) (by omega)
  have hq0 : parseQualifier
      (tlv 48 (oidTLV idQtCertificationPracticeStatement ++ tlv 22 cps) ++
        tlv 48 (oidTLV idQtUnotice ++ tlv 48 (tlv 26 uno))) =
      some (⟨idQtCertificationPracticeStatement, ⟨cps, tlv 22 cps⟩⟩,
        tlv 48 (oidTLV idQtUnotice ++ tlv 48 (tlv 26 uno))) := by
    have := parseQualifier_mk idQtCertificationPracticeStatement (tlv 22 cps)
      (tlv 48 (oidTLV idQtUnotice ++ tlv 48 (tlv 26 uno))) _ _ parseOID_cps
      (by rw [oidContents_cps_length]; decide) (by omega) hvCps
    simpa using this
  have hq1 : parseQualifier (tlv 48 (oidTLV idQtUnotice ++ tlv 48 (tlv 26 uno))) =
      some (⟨idQtUnotice, ⟨tlv 26 uno, tlv 48 (tlv 26 uno)⟩⟩, []) := by
    have := parseQualifier_mk idQtUnotice (tlv 48 (tlv 26 uno)) [] _ _ parseOID_unotice
      (by rw [oidContents_unotice_length]; decide) (by omega) hvU
    simpa using this
  have hqs1 : parseQualifiers (tlv 48 (oidTLV idQtUnotice ++ tlv 48 (tlv 26 uno))) =
      some [⟨idQtUnotice, ⟨tlv 26 uno, tlv 48 (tlv 26 uno)⟩⟩] := by
    have hmk : parseQualifier (tlv 48 (oidTLV idQtUnotice ++ tlv 48 (tlv 26 uno)) ++ []) =
        some (⟨idQtUnotice, ⟨tlv 26 uno, tlv 48 (tlv 26 uno)⟩⟩, []) := by
      rw [List.append_nil]
      exact hq1
    have := parseQualifiers_append (oidTLV idQtUnotice ++ tlv 48 (tlv 26 uno)) []
      _ _ hmk parseQualifiers_nil
    rwa [List.append_nil] at this
  have hqs : parseQualifiers
      (tlv 48 (oidTLV idQtCertificationPracticeStatement ++ tlv 22 cps) ++
        tlv 48 (oidTLV idQtUnotice ++ tlv 48 (tlv 26 uno))) =
      some [⟨idQtCertificationPracticeStatement, ⟨cps, tlv 22 cps⟩⟩,
        ⟨idQtUnotice, ⟨tlv 26 uno, tlv 48 (tlv 26 uno)⟩⟩] :=
    parseQualifiers_append (oidTLV idQtCertificationPracticeStatement ++ tlv 22 cps)
      (tlv 48 (oidTLV idQtUnotice ++ tlv 48 (tlv 26 uno))) _ _ hq0 hqs1
  have hpi : parsePolicyInfo (tlv 48 (oidTLV idSubjectIdentityValidated ++
      tlv 48 (tlv 48 (oidTLV idQtCertificationPracticeStatement ++ tlv 22 cps) ++
        tlv 48 (oidTLV idQtUnotice ++ tlv 48 (tlv 26 uno)))) ++ []) =
      some (⟨idSubjectIdentityValidated,
        [⟨idQtCertificationPracticeStatement, ⟨cps, tlv 22 cps⟩⟩,
         ⟨idQtUnotice, ⟨tlv 26 uno, tlv 48 (tlv 26 uno)⟩⟩]⟩, []) := by
    have := parsePolicyInfo_mk idSubjectIdentityValidated
      (tlv 48 (oidTLV idQtCertificationPracticeStatement ++ tlv 22 cps) ++
        tlv 48 (oidTLV idQtUnotice ++ tlv 48 (tlv 26 uno))) [] _ _ parseOID_siv
      (by rw [oidContents_siv_length]; decide) (by omega)
      (by omega) hqs
    exact this
  have hpis : parsePolicyInfos (tlv 48 (oidTLV idSubjectIdentityValidated ++
      tlv 48 (tlv 48 (oidTLV idQtCertificationPracticeStatement ++ tlv 22 cps) ++
        tlv 48 (oidTLV idQtUnotice ++ tlv 48 (tlv 26 uno))))) =
      some [⟨idSubjectIdentityValidated,
        [⟨idQtCertificationPracticeStatement, ⟨cps, tlv 22 cps⟩⟩,
         ⟨idQtUnotice, ⟨tlv 26 uno, tlv 48 (tlv 26 uno)⟩⟩]⟩] := by
    have := parsePolicyInfos_append (oidTLV idSubjectIdentityValidated ++
      tlv 48 (tlv 48 (oidTLV idQtCertificationPracticeStatement ++ tlv 22 cps) ++
        tlv 48 (oidTLV idQtUnotice ++ tlv 48 (tlv 26 uno)))) [] _ _ hpi
      parsePolicyInfos_nil
    rwa [List.append_nil] at this
  have hun : unmarshalPI (piBytes cps uno 26) =
      some ([⟨idSubjectIdentityValidated,
        [⟨idQtCertificationPracticeStatement, ⟨cps, tlv 22 cps⟩⟩,
         ⟨idQtUnotice, ⟨tlv 26 uno, tlv 48 (tlv 26 uno)⟩⟩]⟩], []) := by
    have houter : parseTLV (piBytes cps uno 26) =
        some ⟨48, tlv 48 (oidTLV idSubjectIdentityValidated ++
          tlv 48 (tlv 48 (oidTLV idQtCertificationPracticeStatement ++ tlv 22 cps) ++
            tlv 48 (oidTLV idQtUnotice ++ tlv 48 (tlv 26 uno)))),
          piBytes cps uno 26, []⟩ := by
      have := parseTLV_tlv_nil 48 (tlv 48 (oidTLV idSubjectIdentityValidated ++
        tlv 48 (tlv 48 (oidTLV idQtCertificationPracticeStatement ++ tlv 22 cps) ++
          tlv 48 (oidTLV idQtUnotice ++ tlv 48 (tlv 26 uno))))) (by decide) (by omega)
      exact this
    simp only [unmarshalPI, houter, hpis]
    simp
  have hdecCps : decodeStringTLV (tlv 22 cps) = some (cps, []) :=
    decodeStringTLV_ia5 cps hc (by omega)
  have hhead : (if (tlv 26 uno).head? = some 26 then 19 :: (tlv 26 uno).tail
      else tlv 26 uno) = tlv 19 uno := by
    simp [tlv]
  have hdecU : decodeStringTLV (tlv 19 uno) = some (uno, []) :=
    decodeStringTLV_printable uno hu (by omega)
  simp only [ExtractCertificationPolicy, hun, hdecCps, hhead, hdecU]
  simp

set_option maxRecDepth 10000 in
unseal base256 base128Hi in
theorem newCP_longUnotice_eval :
    NewCertficationPolicy (goStr "https://x/a.txt")
        (goStr "http://example.com/" ++ List.replicate 109 97) =
      .error "Unexpected asn1 encoding" := by rfl

set_option maxRecDepth 10000 in
/-- C2: the round-trip as claimed fails for printable-ASCII URL strings in
general. With a 128-byte printable-ASCII unotice URL the DER length moves to
long form, the tag-byte check inside `NewCertficationPolicy` misfires, and the
encoder itself returns the hard error, so there is nothing to decode. -/
theorem C2_counterexample :
    ((goStr "http://example.com/" ++ List.replicate 109 97).all
      (fun b => 32 ≤ b && b ≤ 126) = true) ∧
    (goStr "http://example.com/" ++ List.replicate 109 97).all isPrintableByte = true ∧
    (goStr "http://example.com/" ++ List.replicate 109 97).length = 128 ∧
    NewCertficationPolicy (goStr "https://x/a.txt")
        (goStr "http://example.com/" ++ List.replicate 109 97) =
      .error "Unexpected asn1 encoding" :=
  ⟨by decide, by decide, by decide, newCP_longUnotice_eval⟩

/-- C2 (amended): for a cps URL of ASCII bytes (below 128, length at most
2^20) and a unotice URL of ASN.1-printable bytes of length at most 127,
encoding succeeds and decoding the resulting extension recovers exactly the
original two strings. -/
theorem C2_roundtrip_amended (cps unotice : GoStr)
    (hc : cps.all (· < 128) = true)
    (hu : unotice.all isPrintableByte = true)
    (hw : unotice.length ≤ 127)
    (hclen : cps.length ≤ 2 ^ 20) :
    ∃ ext, NewCertficationPolicy cps unotice = .ok ext ∧
      ExtractCertificationPolicy ext = .ok (cps, unotice) :=
  ⟨⟨idCertificatePolicies, false, piBytes cps unotice 26⟩,
    NewCertficationPolicy_ok cps unotice hc hu hw,
    Extract_piBytes cps unotice hc hu hw hclen⟩

/-- C2 witness: the amended round-trip at two concrete URLs. -/
theorem C2_witness :
    ∃ ext, NewCertficationPolicy (goStr "https://x/a.txt") (goStr "https://x/b.txt") =
        .ok ext ∧
      ExtractCertificationPolicy ext =
        .ok (goStr "https://x/a.txt", goStr "https://x/b.txt") :=
  C2_roundtrip_amended (goStr "https://x/a.txt") (goStr "https://x/b.txt")
    (by decide) (by decide) (by decide) (by decide)

/-! ## C3: the tag-byte patch -/

theorem piBytes_trailing (cps uno : GoStr) (t : Nat) :
    uno.length ≤ (piBytes cps uno t).length ∧
    (piBytes cps uno t).drop ((piBytes cps uno t).length - uno.length) = uno := by
  obtain ⟨P, hP⟩ := piBytes_decomp cps uno
  rw [hP t]
  have hassoc : P ++ (t :: (lenBytes uno.length ++ uno)) =
      (P ++ t :: lenBytes uno.length) ++ uno := by
    simp [List.append_assoc]
  rw [hassoc]
  constructor
  · simp
    omega
  · have hlen : ((P ++ t :: lenBytes uno.length) ++ uno).length - uno.length =
        (P ++ t :: lenBytes uno.length).length := by
      simp
      omega
    rw [hlen, List.drop_left]

theorem marshalPI_ok_trailing (cps uno : GoStr) (b : List Nat)
    (h : marshalPI cps uno = .ok b) :
    uno.length ≤ b.length ∧ b.drop (b.length - uno.length) = uno := by
  obtain ⟨-, hcase⟩ := marshalPI_ok_cases cps uno b h
  rcases hcase with ⟨-, hb⟩ | ⟨-, -, hb⟩ <;> rw [hb] <;> exact piBytes_trailing cps uno _

/-- C3: `NewCertficationPolicy` either fails with an encoding error, or
returns exactly the generic marshaller's output with one byte changed: the
tag byte sitting two positions before the trailing unotice bytes is 19
(PrintableString) in the marshaller's output and 26 (VisibleString) in the
returned extension value, every other byte is unchanged, and the byte just
before the unotice bytes equals the unotice length. Moreover it fails with
the hard error whenever that tag byte is not 19 or that length byte does not
equal the unotice length, and a marshaller error is passed through. -/
theorem C3_patch_characterization (cps unotice : GoStr) :
    (∀ ext, NewCertficationPolicy cps unotice = .ok ext →
      ∃ b, marshalPI cps unotice = .ok b ∧
        2 ≤ b.length - unotice.length ∧
        b.drop (b.length - unotice.length) = unotice ∧
        b.get? (b.length - unotice.length - 2) = some 19 ∧
        b.get? (b.length - unotice.length - 1) = some unotice.length ∧
        ext = ⟨idCertificatePolicies, false,
          b.set (b.length - unotice.length - 2) 26⟩ ∧
        ext.Value.length = b.length ∧
        ext.Value.get? (b.length - unotice.length - 2) = some 26 ∧
        (∀ k, k ≠ b.length - unotice.length - 2 →
          ext.Value.get? k = b.get? k)) ∧
    (∀ b, marshalPI cps unotice = .ok b →
      (b.get? (b.length - unotice.length - 2) ≠ some 19 ∨
        b.get? (b.length - unotice.length - 1) ≠ some unotice.length) →
      NewCertficationPolicy cps unotice = .error "Unexpected asn1 encoding") ∧
    (∀ e, marshalPI cps unotice = .error e →
      NewCertficationPolicy cps unotice = .error e) := by
  refine ⟨?_, ?_, ?_⟩
  · intro ext hok
    rcases hm : marshalPI cps unotice with e | b
    · simp only [NewCertficationPolicy, hm] at hok
      exact absurd hok (by simp)
    · simp only [NewCertficationPolicy, hm] at hok
      split at hok
      · exact absurd hok (by simp)
      · rename_i hcond
        push_neg at hcond
        obtain ⟨h2, hlenb, htag⟩ := hcond
        injection hok with hok
        have hj : b.length - unotice.length - 2 < b.length := by
          by_contra hge
          rw [List.get?_eq_none.mpr (by omega)] at htag
          exact absurd htag (by simp)
        obtain ⟨hle, hdrop⟩ := marshalPI_ok_trailing cps unotice b hm
        subst hok
        refine ⟨b, rfl, by omega, hdrop, htag, hlenb, rfl, by simp, ?_, ?_⟩
        · exact List.get?_set_eq_of_lt 26 hj
        · intro k hk
          exact List.get?_set_ne 26 b (Ne.symm hk)
  · intro b hm hbad
    simp only [NewCertficationPolicy, hm]
    split
    · rfl
    · rename_i hcond
      push_neg at hcond
      rcases hbad with hb | hb
      · exact absurd hcond.2.2 hb
      · exact absurd hcond.2.1 hb
  · intro e hm
    simp only [NewCertficationPolicy, hm]

end Taoca
